import Mathlib

/-!
# Response relay of the one-api gateway (OpenAI adaptor)

A shallow embedding of `relay/adaptor/openai/main.go` (`StreamHandler`, `Handler`),
followed by one of `common/global_state.go` (the high-load monitor).

Conventions of the embedding.

* A Go `string` / `[]byte` is a list of bytes, `GoString := List Char`, one `Char`
  per byte; `len`, `s[:n]`, `s[n:]` are `List.length`, `List.take`, `List.drop`.
* A Go `int` is an `Int` in the signed 64-bit range; `+` on `int` is `goAdd`,
  which wraps around modulo `2^64`.
* The upstream body of `StreamHandler` is given as the list of lines for which
  `scanner.Scan()` returned true, in order; a scanner error is only logged.
* What the handlers send to the client is explicit state: the list of `render`
  calls for `StreamHandler`, a `Writer` (headers, status, body) for `Handler`.
  Package `render` and `common.SetEventStreamHeaders` are outside the two source
  files: a call of `render` is recorded, not interpreted, and the headers of the
  event stream are not part of the state.
* `encoding/json` for the response types, `conv.AsString`, `Message.StringContent`
  and `CountTokenText` are collaborators outside the two source files; they are
  the fields of `Deps`.
* Logging (`logger.SysError`) has no effect on any result and is left out.
-/

namespace openai

/-- A Go string, as the list of its bytes. -/
abbrev GoString := List Char

/-- A Go `error` value, identified with its message `err.Error()`. -/
abbrev GoError := GoString

/-! ## Constants of `main.go` -/

def dataPrefix : GoString := "data: ".toList

def done : GoString := "[DONE]".toList

def dataPrefixLength : Nat := dataPrefix.length

/-! ## Go integer arithmetic -/

/-- Reduction of an integer into the signed 64-bit range (two's complement wrap-around). -/
def wrapInt64 (x : Int) : Int := (x + 2 ^ 63) % 2 ^ 64 - 2 ^ 63

/-- Go `a + b` on `int`. -/
def goAdd (a b : Int) : Int := wrapInt64 (a + b)

/-! ## Data model (package `model` and the response types of package `openai`) -/

/-- Modelled from the spec: `model.Usage` is missing from the sources;
"Usage: {promptTokens, completionTokens, totalTokens}". -/
structure Usage where
  PromptTokens : Int
  CompletionTokens : Int
  TotalTokens : Int
  deriving DecidableEq, Repr

/-- Modelled from the spec: `model.Error` is missing from the sources;
"error (kind/message, empty when absent)". `Type_` is the field `Type`, the error kind. -/
structure Error where
  Message : GoString
  Type_ : GoString
  Param : GoString
  Code : GoString
  deriving DecidableEq, Repr

/-- Result error of both handlers, `model.ErrorWithStatusCode`. -/
structure ErrorWithStatusCode where
  Error : Error
  StatusCode : Int
  deriving DecidableEq, Repr

/-- Modelled from the spec: `ErrorWrapper` is missing from the sources; "a structured
error carrying a machine-readable code and an HTTP status". The kind of a wrapped
error is the gateway's own, `one_api_error`. -/
def ErrorWrapper (err : GoError) (code : GoString) (statusCode : Int) : ErrorWithStatusCode :=
  { Error := { Message := err, Type_ := "one_api_error".toList, Param := [], Code := code },
    StatusCode := statusCode }

/-- The error code `"close_response_body_failed"`. -/
def code_close_response_body_failed : GoString := "close_response_body_failed".toList

/-- The error code `"read_response_body_failed"`. -/
def code_read_response_body_failed : GoString := "read_response_body_failed".toList

/-- The error code `"unmarshal_response_body_failed"`. -/
def code_unmarshal_response_body_failed : GoString := "unmarshal_response_body_failed".toList

/-- The error code `"copy_response_body_failed"`. -/
def code_copy_response_body_failed : GoString := "copy_response_body_failed".toList

/-- The constant `http.StatusInternalServerError`. -/
def StatusInternalServerError : Int := 500

/-- A decoded JSON value held in a field of Go type `any` (a message content). -/
inductive AnyValue where
  | str (s : GoString)
  | num (n : Int)
  | null
  deriving DecidableEq, Repr

/-- Modelled from the spec: `model.Message` is missing from the sources; a message
carries a role and a content ("partial text content" in a delta, "full message
content" in a choice). -/
structure Message where
  Role : GoString
  Content : AnyValue
  deriving DecidableEq, Repr

/-- One choice of a streamed chat chunk. -/
structure ChatCompletionsStreamResponseChoice where
  Index : Int
  Delta : Message
  FinishReason : Option GoString
  deriving DecidableEq, Repr

/-- Modelled from the spec: the type is missing from the sources; "StreamingDelta:
model name (mutable for masking), zero-or-more choice deltas (each carrying
partial text content), optional usage". -/
structure ChatCompletionsStreamResponse where
  Id : GoString
  Object : GoString
  Created : Int
  Model : GoString
  Choices : List ChatCompletionsStreamResponseChoice
  Usage : Option Usage
  deriving DecidableEq, Repr

/-- One choice of a streamed legacy-completion chunk. -/
structure CompletionsStreamResponseChoice where
  Text : GoString
  FinishReason : GoString
  deriving DecidableEq, Repr

/-- Modelled from the spec: the type is missing from the sources; a legacy-completion
chunk, decoded "for accumulation purposes only". -/
structure CompletionsStreamResponse where
  Choices : List CompletionsStreamResponseChoice
  deriving DecidableEq, Repr

/-- One choice of a non-streaming response. -/
structure TextResponseChoice where
  Index : Int
  Message : Message
  FinishReason : GoString
  deriving DecidableEq, Repr

/-- Modelled from the spec: the type is missing from the sources; the part of
"FullResponse" that `Handler` decodes first: error, usage, ordered choices. -/
structure SlimTextResponse where
  Choices : List TextResponseChoice
  Usage : Usage
  Error : Error
  deriving DecidableEq, Repr

/-- Modelled from the spec: the type is missing from the sources; "the full
response shape", which has the model field. -/
structure TextResponse where
  Id : GoString
  Model : GoString
  Object : GoString
  Created : Int
  Choices : List TextResponseChoice
  Usage : Usage
  deriving DecidableEq, Repr

/-- Relay mode: the `int` argument of `StreamHandler`, compared by its `switch` with
`relaymode.ChatCompletions` and `relaymode.Completions`; every other value takes
neither case. -/
inductive RelayMode where
  | ChatCompletions
  | Completions
  | other
  deriving DecidableEq, Repr

/-- Modelled from the spec: the keys of `gin.Context` read by the handlers,
"RedirectionContext {wasRedirected: bool, originalModel: string, targetModel:
string}"; `none` is a key that is not set. The values under `original_model` and
`target_model` are strings, so the assertions `.(string)` succeed. -/
structure Context where
  model_redirected : Option Bool
  original_model : Option GoString
  target_model : Option GoString
  deriving DecidableEq, Repr

/-- The collaborators of the two handlers that are not in the source files.
A decoder or encoder returns `none` where Go returns a non-nil error that is only
logged; `unmarshalSlim` keeps the error, which `Handler` returns. -/
structure Deps where
  /-- The function `json.Unmarshal` into a `ChatCompletionsStreamResponse`. -/
  unmarshalChat : GoString → Option ChatCompletionsStreamResponse
  /-- The function `json.Unmarshal` into a `CompletionsStreamResponse`. -/
  unmarshalCompletions : GoString → Option CompletionsStreamResponse
  /-- The members that `json.Marshal` writes for a `ChatCompletionsStreamResponse`. -/
  chatMembers : ChatCompletionsStreamResponse → Option GoString
  /-- The function `json.Unmarshal` into a `SlimTextResponse`. -/
  unmarshalSlim : GoString → Except GoError SlimTextResponse
  /-- The function `json.Unmarshal` into a `TextResponse`. -/
  unmarshalText : GoString → Option TextResponse
  /-- The members that `json.Marshal` writes for a `TextResponse`. -/
  textMembers : TextResponse → Option GoString
  /-- The function `conv.AsString`. -/
  AsString : AnyValue → GoString
  /-- The function `Message.StringContent`. -/
  StringContent : Message → GoString
  /-- The function `CountTokenText`. -/
  CountTokenText : GoString → GoString → Int
  /-- The function `textproto.CanonicalMIMEHeaderKey`, applied by `Header().Set`. -/
  CanonicalKey : GoString → GoString

/-- The opening brace of a JSON object. -/
def lbrace : GoString := "\x7b".toList

/-- The closing brace of a JSON object. -/
def rbrace : GoString := "\x7d".toList

/-- The function `json.Marshal` of a `ChatCompletionsStreamResponse`: the encoding of a struct
value is a JSON object, its members between braces; `none` is an encoding error. -/
def Deps.marshalChat (d : Deps) (r : ChatCompletionsStreamResponse) : Option GoString :=
  (d.chatMembers r).map (fun members => lbrace ++ members ++ rbrace)

/-- The function `json.Marshal` of a `TextResponse`, a JSON object as well. -/
def Deps.marshalText (d : Deps) (r : TextResponse) : Option GoString :=
  (d.textMembers r).map (fun members => lbrace ++ members ++ rbrace)

/-! ## StreamHandler -/

/-- A call of package `render` on the client connection: `render.StringData(c, s)`
or `render.Done(c)`. -/
inductive Render where
  | StringData (s : GoString)
  | Done
  deriving DecidableEq, Repr

/-- The function `strings.HasPrefix(s, p)`. -/
def HasPrefix (s p : GoString) : Bool := p.isPrefixOf s

/-- The local variables of `StreamHandler` that live across loop iterations, and
the calls made on the client so far. -/
structure LoopState where
  out : List Render
  responseText : GoString
  usage : Option Usage
  doneRendered : Bool
  deriving DecidableEq, Repr

/-- The line sent for a decoded chat chunk (lines 63-80 of `main.go`). -/
def maskedLine (d : Deps) (c : Context) (data : GoString)
    (streamResponse : ChatCompletionsStreamResponse) : GoString :=
  if c.model_redirected = some true then
    match c.original_model with
    | some originalModel =>
      match d.marshalChat { streamResponse with Model := originalModel } with
      | none => data
      | some modifiedData => dataPrefix ++ modifiedData
    | none => data
  else data

/-- One iteration of the scan loop of `StreamHandler` on the line `data`
(lines 37-98 of `main.go`). -/
def processLine (d : Deps) (c : Context) (relayMode : RelayMode)
    (st : LoopState) (data : GoString) : LoopState :=
  if data.length < dataPrefixLength then st
  else if data.take dataPrefixLength ≠ dataPrefix ∧ data.take dataPrefixLength ≠ done then st
  else if HasPrefix (data.drop dataPrefixLength) done then
    { st with out := st.out ++ [Render.StringData data], doneRendered := true }
  else
    match relayMode with
    | RelayMode.ChatCompletions =>
      match d.unmarshalChat (data.drop dataPrefixLength) with
      | none => { st with out := st.out ++ [Render.StringData data] }
      | some streamResponse =>
        if streamResponse.Choices.length = 0 ∧ streamResponse.Usage = none then st
        else
          { out := st.out ++ [Render.StringData (maskedLine d c data streamResponse)]
            responseText := streamResponse.Choices.foldl
              (fun acc choice => acc ++ d.AsString choice.Delta.Content) st.responseText
            usage := match streamResponse.Usage with
              | some u => some u
              | none => st.usage
            doneRendered := st.doneRendered }
    | RelayMode.Completions =>
      let st1 : LoopState := { st with out := st.out ++ [Render.StringData data] }
      match d.unmarshalCompletions (data.drop dataPrefixLength) with
      | none => st1
      | some streamResponse =>
        let text := streamResponse.Choices.foldl (fun acc choice => acc ++ choice.Text)
          st1.responseText
        { st1 with responseText := text }
    | RelayMode.other => st

/-- State of `StreamHandler` before the loop. -/
def initState : LoopState :=
  { out := [], responseText := [], usage := none, doneRendered := false }

/-- The scan loop: `processLine` on every line, in order. -/
def scanLoop (d : Deps) (c : Context) (relayMode : RelayMode)
    (st : LoopState) (lines : List GoString) : LoopState :=
  lines.foldl (processLine d c relayMode) st

/-- The upstream response given to `StreamHandler`: the lines its scanner yields and
the result of `resp.Body.Close()`. -/
structure StreamBody where
  lines : List GoString
  closeErr : Option GoError
  deriving DecidableEq, Repr

/-- Result of `StreamHandler`: the three returned values and the calls made on the
client. -/
structure StreamResult where
  out : List Render
  err : Option ErrorWithStatusCode
  responseText : GoString
  usage : Option Usage
  deriving DecidableEq, Repr

/-- The function `StreamHandler` of `main.go`. -/
def StreamHandler (d : Deps) (c : Context) (resp : StreamBody) (relayMode : RelayMode) :
    StreamResult :=
  let st := scanLoop d c relayMode initState resp.lines
  let out := if !st.doneRendered then st.out ++ [Render.Done] else st.out
  match resp.closeErr with
  | some err =>
    { out := out
      err := some (ErrorWrapper err code_close_response_body_failed StatusInternalServerError)
      responseText := []
      usage := none }
  | none => { out := out, err := none, responseText := st.responseText, usage := st.usage }

/-! ## Handler -/

/-- One entry of the upstream `resp.Header`: a key and its values, `first` being
`v[0]`. A header map filled by `net/http` has no key with an empty value list. -/
structure HeaderEntry where
  key : GoString
  first : GoString
  more : List GoString
  deriving DecidableEq, Repr

/-- The upstream response given to `Handler`. `Header` lists the entries of the map
in the order the `range` loop visits them; `readErr` is the error of `io.ReadAll`,
`closeErr` the error of the first `resp.Body.Close()`. -/
structure Response where
  StatusCode : Int
  Header : List HeaderEntry
  Body : GoString
  readErr : Option GoError
  closeErr : Option GoError
  deriving DecidableEq, Repr

/-- The client side `c.Writer` as explicit state: the header map (key, values), the
status code once `WriteHeader` was called, and the body bytes written. -/
structure Writer where
  Header : List (GoString × List GoString)
  Status : Option Int
  Body : GoString
  deriving DecidableEq, Repr

/-- The call `Header().Set(k, v)`: the values of the canonical key become `[v]`. -/
def Writer.Set (d : Deps) (w : Writer) (k v : GoString) : Writer :=
  { w with Header := (w.Header.filter (fun e => e.1 ≠ d.CanonicalKey k)) ++ [(d.CanonicalKey k, [v])] }

/-- The values `Header()[k]` of the writer's header map. -/
def Writer.Values (w : Writer) (k : GoString) : List GoString :=
  match w.Header.find? (fun e => e.1 = k) with
  | some e => e.2
  | none => []

/-- The call `WriteHeader(code)`. -/
def Writer.WriteHeader (w : Writer) (code : Int) : Writer :=
  { w with Status := some code }

/-- The call `Write(p)`, all bytes accepted. -/
def Writer.Write (w : Writer) (p : GoString) : Writer :=
  { w with Body := w.Body ++ p }

/-- Replacement of the non-overlapping occurrences of `old`, leftmost first; `skip`
counts the bytes of a matched occurrence that are still to be passed over. -/
def replaceFrom (old new : GoString) : Nat → GoString → GoString
  | _, [] => []
  | skip + 1, _ :: rest => replaceFrom old new skip rest
  | 0, b :: rest =>
    if old.isPrefixOf (b :: rest) then new ++ replaceFrom old new (old.length - 1) rest
    else b :: replaceFrom old new 0 rest

/-- The function `strings.ReplaceAll(s, old, new)`. `Handler` calls it with a non-empty `old`; for
an empty `old` Go inserts `new` at every rune boundary, which is every byte
boundary of a string of one-byte runes. -/
def ReplaceAll (s old new : GoString) : GoString :=
  match old with
  | [] => new ++ (s.map (fun b => b :: new)).flatten
  | _ :: _ => replaceFrom old new 0 s

/-- The text `"model":"<name>"` searched and substituted by the fallback of `Handler`. -/
def modelField (name : GoString) : GoString :=
  "\"model\":\"".toList ++ name ++ "\"".toList

/-- The body `Handler` forwards (lines 138-172 of `main.go`): the upstream body after
the masking of the model name. -/
def maskedBody (d : Deps) (c : Context) (responseBody : GoString) : GoString :=
  if c.model_redirected = some true then
    match c.original_model with
    | some originalModel =>
      let fallback : GoString :=
        match c.target_model with
        | some targetModel =>
          ReplaceAll responseBody (modelField targetModel) (modelField originalModel)
        | none => responseBody
      match d.unmarshalText responseBody with
      | some fullTextResponse =>
        if fullTextResponse.Model ≠ [] then
          match d.marshalText { fullTextResponse with Model := originalModel } with
          | none => responseBody
          | some modifiedResponseBody => modifiedResponseBody
        else fallback
      | none => fallback
    | none => responseBody
  else responseBody

/-- The usage `Handler` returns (lines 191-202 of `main.go`). -/
def finalUsage (d : Deps) (textResponse : SlimTextResponse) (promptTokens : Int)
    (modelName : GoString) : Usage :=
  if textResponse.Usage.TotalTokens = 0 ∨
      (textResponse.Usage.PromptTokens = 0 ∧ textResponse.Usage.CompletionTokens = 0) then
    let completionTokens := textResponse.Choices.foldl
      (fun acc choice =>
        goAdd acc (d.CountTokenText (d.StringContent choice.Message) modelName)) 0
    { PromptTokens := promptTokens
      CompletionTokens := completionTokens
      TotalTokens := goAdd promptTokens completionTokens }
  else textResponse.Usage

/-- Result of `Handler`: the two returned values and the client writer afterwards. -/
structure HandlerResult where
  writer : Writer
  err : Option ErrorWithStatusCode
  usage : Option Usage
  deriving DecidableEq, Repr

/-- The function `Handler` of `main.go`. `w` is `c.Writer` on entry; `copyFail` is
the behaviour of the client connection under `io.Copy`: `none` when every byte is
written, `some (n, err)` when the copy stops with `err` after `n` bytes. The second
`resp.Body.Close()` closes an `io.NopCloser` and never fails. -/
def Handler (d : Deps) (c : Context) (w : Writer) (copyFail : Option (Nat × GoError))
    (resp : Response) (promptTokens : Int) (modelName : GoString) : HandlerResult :=
  match resp.readErr with
  | some err =>
    { writer := w
      err := some (ErrorWrapper err code_read_response_body_failed StatusInternalServerError)
      usage := none }
  | none =>
  match resp.closeErr with
  | some err =>
    { writer := w
      err := some (ErrorWrapper err code_close_response_body_failed StatusInternalServerError)
      usage := none }
  | none =>
  match d.unmarshalSlim resp.Body with
  | Except.error err =>
    { writer := w
      err := some (ErrorWrapper err code_unmarshal_response_body_failed StatusInternalServerError)
      usage := none }
  | Except.ok textResponse =>
  if textResponse.Error.Type_ ≠ [] then
    { writer := w
      err := some { Error := textResponse.Error, StatusCode := resp.StatusCode }
      usage := none }
  else
    let responseBody := maskedBody d c resp.Body
    let w1 := resp.Header.foldl (fun acc e => Writer.Set d acc e.key e.first) w
    let w2 := w1.WriteHeader resp.StatusCode
    match copyFail with
    | some (n, err) =>
      { writer := w2.Write (responseBody.take n)
        err := some (ErrorWrapper err code_copy_response_body_failed StatusInternalServerError)
        usage := none }
    | none =>
      { writer := w2.Write responseBody
        err := none
        usage := some (finalUsage d textResponse promptTokens modelName) }

/-! ## Vocabulary of the statements -/

/-- The payload of a line: `data[dataPrefixLength:]`. -/
def payload (data : GoString) : GoString := data.drop dataPrefixLength

/-- A line passes the two filters at the head of the loop (lines 38-43 of `main.go`). -/
def accepted (data : GoString) : Bool :=
  decide (dataPrefixLength ≤ data.length) &&
    (data.take dataPrefixLength == dataPrefix || data.take dataPrefixLength == done)

/-- A line the loop treats as terminal: accepted, and the test of line 44 holds. -/
def terminalLine (data : GoString) : Bool :=
  accepted data && HasPrefix (payload data) done

/-- A line that carries `[DONE]` as its payload: what follows its first
`dataPrefixLength` bytes is exactly the sentinel. -/
def carriesDone (data : GoString) : Bool :=
  accepted data && payload data == done

/-- A line that begins with the sentinel itself, without the prefix `data: `: it passes
the filter of line 41 of `main.go` through its second alternative, and the test of
line 44 then looks behind the sentinel. -/
def bareSentinel (data : GoString) : Bool := HasPrefix data done

/-- A terminal event on the client side: the synthetic one of `render.Done`, a
forwarded terminal line, or a forwarded text that begins with the sentinel itself.
The events of the stream are `data: `-framed, so the bare sentinel `[DONE]` handed to
`render.StringData` reaches the client as the event that `render.Done` sends. -/
def Render.isTerminal : Render → Bool
  | Render.Done => true
  | Render.StringData s => terminalLine s || bareSentinel s

/-- The text a decoded chat chunk contributes: the delta contents of its choices,
in choice order. -/
def chunkText (d : Deps) (r : ChatCompletionsStreamResponse) : GoString :=
  (r.Choices.map (fun choice => d.AsString choice.Delta.Content)).flatten

/-- The concatenation, in arrival order, of the delta contents of every choice of
every accepted non-terminal line whose payload decodes as a chat chunk. -/
def expectedChatText (d : Deps) (lines : List GoString) : GoString :=
  (((lines.filter (fun l => accepted l && !terminalLine l)).filterMap
      (fun l => d.unmarshalChat (payload l))).map (chunkText d)).flatten

/-- The line sent for a chunk under redirection to the original model `a`: `data: `
and the encoding of the chunk with its model set to `a`, or the line `data` itself
when the encoding fails. -/
def rewrittenLine (d : Deps) (a data : GoString) (r : ChatCompletionsStreamResponse) :
    GoString :=
  match d.marshalChat { r with Model := a } with
  | some m => dataPrefix ++ m
  | none => data

/-- The sum of a list of token counts in Go `int` arithmetic. -/
def goSum (counts : List Int) : Int := counts.foldl goAdd 0

/-- The token counts of the choices of a response under the model name `modelName`. -/
def choiceCounts (d : Deps) (textResponse : SlimTextResponse) (modelName : GoString) :
    List Int :=
  textResponse.Choices.map
    (fun choice => d.CountTokenText (d.StringContent choice.Message) modelName)

/-- The chat chunks of a stream, in arrival order: the decoded payloads of the
accepted non-terminal lines whose payload decodes. -/
def decodedChunks (d : Deps) (lines : List GoString) : List ChatCompletionsStreamResponse :=
  (lines.filter (fun l => accepted l && !terminalLine l)).filterMap
    (fun l => d.unmarshalChat (payload l))

/-- The usage of the last chat chunk of a stream that carries a usage, `none` when no
chunk carries one. -/
def expectedUsage (d : Deps) (lines : List GoString) : Option Usage :=
  ((decodedChunks d lines).filterMap (fun r => r.Usage)).getLast?

/-- The function `strings.Contains(s, old)`: `old` occurs in `s` at some position. -/
def Contains (s old : GoString) : Bool :=
  match s with
  | [] => old.isPrefixOf []
  | b :: rest => old.isPrefixOf (b :: rest) || Contains rest old

/-! ## A small instance of the collaborators

A codec that knows the payloads of the examples below, and a token counter that
counts bytes. -/

namespace Example

/-- The chunk payload `{"model":"B","choices":[{"delta":{"content":"Hi"}}]}`. -/
def chatPayload : GoString :=
  "\x7b\"model\":\"B\",\"choices\":[\x7b\"delta\":\x7b\"content\":\"Hi\"\x7d\x7d]\x7d".toList

/-- The chunk that `chatPayload` decodes to. -/
def chatChunk : ChatCompletionsStreamResponse :=
  { Id := [], Object := [], Created := 0, Model := "B".toList
    Choices := [{ Index := 0, Delta := { Role := [], Content := AnyValue.str "Hi".toList },
                  FinishReason := none }]
    Usage := none }

/-- The chunk payload `{"model":"B","choices":[],"usage":{...}}` of a final usage frame. -/
def usagePayload : GoString :=
  ("\x7b\"model\":\"B\",\"choices\":[],\"usage\":\x7b\"prompt_tokens\":3," ++
    "\"completion_tokens\":2,\"total_tokens\":5\x7d\x7d").toList

/-- The chunk that `usagePayload` decodes to. -/
def usageChunk : ChatCompletionsStreamResponse :=
  { Id := [], Object := [], Created := 0, Model := "B".toList, Choices := []
    Usage := some { PromptTokens := 3, CompletionTokens := 2, TotalTokens := 5 } }

/-- The legacy chunk payload `{"model":"B","choices":[{"text":"Hi"}]}`. -/
def completionsPayload : GoString :=
  "\x7b\"model\":\"B\",\"choices\":[\x7b\"text\":\"Hi\"\x7d]\x7d".toList

/-- The body of a response without usage numbers and with two choices. -/
def bodyNoUsage : GoString :=
  ("\x7b\"model\":\"B\",\"choices\":[\x7b\"message\":\x7b\"content\":\"hello\"\x7d\x7d," ++
    "\x7b\"message\":\x7b\"content\":\"goodbye\"\x7d\x7d]\x7d").toList

/-- The two choices of `bodyNoUsage` and `bodyUsage`. -/
def twoChoices : List TextResponseChoice :=
  [{ Index := 0, Message := { Role := [], Content := AnyValue.str "hello".toList },
     FinishReason := [] },
   { Index := 0, Message := { Role := [], Content := AnyValue.str "goodbye".toList },
     FinishReason := [] }]

/-- The body of a response with the usage `{prompt 10, completion 5, total 15}`. -/
def bodyUsage : GoString :=
  ("\x7b\"model\":\"B\",\"choices\":[\x7b\"message\":\x7b\"content\":\"hello\"\x7d\x7d," ++
    "\x7b\"message\":\x7b\"content\":\"goodbye\"\x7d\x7d],\"usage\":\x7b\"prompt_tokens\":10," ++
    "\"completion_tokens\":5,\"total_tokens\":15\x7d\x7d").toList

/-- The body of an upstream error, `{"error":{"message":"slow down","type":"rate_limit"}}`. -/
def bodyError : GoString :=
  "\x7b\"error\":\x7b\"message\":\"slow down\",\"type\":\"rate_limit\"\x7d\x7d".toList

/-- The error that `bodyError` decodes to. -/
def upstreamError : Error :=
  { Message := "slow down".toList, Type_ := "rate_limit".toList, Param := [], Code := [] }

/-- The zero value of `model.Error`. -/
def noError : Error := { Message := [], Type_ := [], Param := [], Code := [] }

/-- The zero value of `model.Usage`. -/
def zeroUsage : Usage := { PromptTokens := 0, CompletionTokens := 0, TotalTokens := 0 }

/-- The usage of `bodyUsage`. -/
def upstreamUsage : Usage := { PromptTokens := 10, CompletionTokens := 5, TotalTokens := 15 }

/-- The text of a content that is a string, the empty text otherwise. -/
def asString : AnyValue → GoString
  | AnyValue.str s => s
  | _ => []

/-- The member `"model":"<name>"` followed by the choices of a chat chunk. -/
def chatMembers (r : ChatCompletionsStreamResponse) : GoString :=
  modelField r.Model ++ ",\"choices\":[".toList ++
    ",".toList.intercalate (r.Choices.map (fun choice =>
      "\x7b\"delta\":\x7b\"content\":\"".toList ++ asString choice.Delta.Content ++
        "\"\x7d\x7d".toList)) ++ "]".toList

/-- The member `"model":"<name>"` followed by the choices of a full response. -/
def textMembers (r : TextResponse) : GoString :=
  modelField r.Model ++ ",\"choices\":[".toList ++
    ",".toList.intercalate (r.Choices.map (fun choice =>
      "\x7b\"message\":\x7b\"content\":\"".toList ++ asString choice.Message.Content ++
        "\"\x7d\x7d".toList)) ++ "]".toList

/-- The instance of the collaborators used by the examples. -/
def deps : Deps :=
  { unmarshalChat := fun p =>
      if p = chatPayload then some chatChunk
      else if p = usagePayload then some usageChunk
      else none
    unmarshalCompletions := fun p =>
      if p = completionsPayload then some { Choices := [{ Text := "Hi".toList, FinishReason := [] }] }
      else none
    chatMembers := fun r => some (chatMembers r)
    unmarshalSlim := fun p =>
      if p = bodyNoUsage then Except.ok { Choices := twoChoices, Usage := zeroUsage, Error := noError }
      else if p = bodyUsage then
        Except.ok { Choices := twoChoices, Usage := upstreamUsage, Error := noError }
      else if p = bodyError then
        Except.ok { Choices := [], Usage := zeroUsage, Error := upstreamError }
      else Except.error "invalid character".toList
    unmarshalText := fun p =>
      if p = bodyNoUsage then
        some { Id := [], Model := "B".toList, Object := [], Created := 0, Choices := twoChoices,
               Usage := zeroUsage }
      else if p = bodyUsage then
        some { Id := [], Model := "B".toList, Object := [], Created := 0, Choices := twoChoices,
               Usage := upstreamUsage }
      else none
    textMembers := fun r => some (textMembers r)
    AsString := asString
    StringContent := fun m => asString m.Content
    CountTokenText := fun text _ => text.length
    CanonicalKey := fun k => k }

/-- A context in which the request for model `A` was redirected to model `B`. -/
def redirected : Context :=
  { model_redirected := some true, original_model := some "A".toList,
    target_model := some "B".toList }

/-- A context without redirection. -/
def plain : Context :=
  { model_redirected := none, original_model := none, target_model := none }

/-- A client writer on which nothing was written yet. -/
def emptyWriter : Writer := { Header := [], Status := none, Body := [] }

/-- An upstream response `200` with one header and the body `body`. -/
def response (body : GoString) : Response :=
  { StatusCode := 200
    Header := [{ key := "Content-Type".toList, first := "application/json".toList, more := [] }]
    Body := body, readErr := none, closeErr := none }

/-- The keep-alive payload `{"choices":[]}`: no choice and no usage. -/
def emptyPayload : GoString := "\x7b\"choices\":[]\x7d".toList

/-- The chunk that `emptyPayload` decodes to. -/
def emptyChunk : ChatCompletionsStreamResponse :=
  { Id := [], Object := [], Created := 0, Model := [], Choices := [], Usage := none }

/-- The collaborators `deps`, with a codec that also knows `emptyPayload`. -/
def depsKeepAlive : Deps :=
  { deps with
    unmarshalChat := fun p => if p = emptyPayload then some emptyChunk else deps.unmarshalChat p
    unmarshalCompletions := fun p =>
      if p = emptyPayload then some { Choices := [] } else deps.unmarshalCompletions p }

/-- The collaborators `deps`, with a token counter that depends on the model name: one
token per byte under model `B`, two tokens per byte under any other model. -/
def depsByModel : Deps :=
  { deps with
    CountTokenText := fun text model =>
      if model = "B".toList then text.length else 2 * text.length }

/-- A body that reports model `B` with a blank after the colon and a `created` field of
the wrong type, `{"model": "B","created":"now"}`. -/
def bodySpaced : GoString := "\x7b\"model\": \"B\",\"created\":\"now\"\x7d".toList

/-- A body that reports model `B` and has a `created` field of the wrong type,
`{"model":"B","created":"now"}`. -/
def bodyBadCreated : GoString := "\x7b\"model\":\"B\",\"created\":\"now\"\x7d".toList

/-- The collaborators `deps`, with a codec that also knows `bodySpaced` and
`bodyBadCreated`: both decode as a slim response, neither as a full response. -/
def depsFallback : Deps :=
  { deps with
    unmarshalSlim := fun p =>
      if p = bodySpaced ∨ p = bodyBadCreated then
        Except.ok { Choices := [], Usage := upstreamUsage, Error := noError }
      else deps.unmarshalSlim p }

/-- An upstream response `200` whose `Set-Cookie` header has two values. -/
def responseTwoCookies : Response :=
  { StatusCode := 200
    Header := [{ key := "Set-Cookie".toList, first := "a=1".toList, more := ["b=2".toList] }]
    Body := bodyUsage, readErr := none, closeErr := none }

end Example

end openai

/-! # The high-load monitor (`common/global_state.go`)

The package variables are explicit state. A poll reads the external predicate
`checkHighLoadFlag` (the marker file exists); its value at a poll is an input of the
step. The mutex makes every read and write of the flag atomic, so an execution is a
sequence of steps: the call of `StartHighLoadMonitor`, then the events the goroutine
receives, in the order its `select` takes them. -/

namespace common

/-- A line written to the system log. -/
inductive LogLine where
  | starting
  | changed (status : Bool)
  | stopped
  deriving DecidableEq, Repr

/-- The package variables of `global_state.go` and the system log: the flag, whether
the ticker exists and runs, whether the stop channel exists, whether the goroutine
is alive. -/
structure GlobalState where
  isHighLoadMode : Bool
  tickerRunning : Bool
  stopChannel : Bool
  monitorAlive : Bool
  log : List LogLine
  deriving DecidableEq, Repr

/-- The function `IsHighLoadMode`. -/
def IsHighLoadMode (s : GlobalState) : Bool := s.isHighLoadMode

/-- The function `setHighLoadMode`. -/
def setHighLoadMode (newStatus : Bool) (s : GlobalState) : GlobalState :=
  if s.isHighLoadMode != newStatus then
    { s with isHighLoadMode := newStatus, log := s.log ++ [LogLine.changed newStatus] }
  else s

/-- The function `StartHighLoadMonitor`, up to its return; `flagExists` is the value of
`checkHighLoadFlag()` at the initial check. -/
def StartHighLoadMonitor (flagExists : Bool) (s : GlobalState) : GlobalState :=
  let s1 : GlobalState :=
    { s with log := s.log ++ [LogLine.starting], tickerRunning := true, stopChannel := true }
  let s2 := setHighLoadMode flagExists s1
  { s2 with monitorAlive := true }

/-- An event the goroutine of the monitor receives in its `select`: a tick, with the
value of `checkHighLoadFlag()` at that poll, or the stop signal. -/
inductive Event where
  | tick (flagExists : Bool)
  | stop
  deriving DecidableEq, Repr

/-- The case `<-highLoadTicker.C` of the goroutine: one poll. -/
def pollStep (flagExists : Bool) (s : GlobalState) : GlobalState :=
  setHighLoadMode flagExists s

/-- The loop of the goroutine on the events it receives: it polls on every tick and
returns on the stop signal, after which no event is taken. -/
def monitorLoop (s : GlobalState) : List Event → GlobalState
  | [] => s
  | Event.tick flagExists :: rest => monitorLoop (pollStep flagExists s) rest
  | Event.stop :: _ =>
    { s with tickerRunning := false, monitorAlive := false, log := s.log ++ [LogLine.stopped] }

end common
namespace openai

/-- Appending in a loop is appending the concatenation. -/
theorem foldl_append_eq {α : Type} (f : α → GoString) (l : List α) (init : GoString) :
    l.foldl (fun acc x => acc ++ f x) init = init ++ (l.map f).flatten := by
  induction l generalizing init with
  | nil => simp
  | cons x xs ih => simp [List.foldl_cons, ih, List.append_assoc]

/-- One iteration appends to the events sent so far a list that depends on the line only. -/
theorem processLine_out (d : Deps) (c : Context) (m : RelayMode) (st : LoopState)
    (data : GoString) :
    (processLine d c m st data).out = st.out ++ (processLine d c m initState data).out := by
  unfold processLine
  repeat' split
  all_goals simp [initState]

/-- After one iteration `doneRendered` holds when it held before or the line is terminal. -/
theorem processLine_doneRendered (d : Deps) (c : Context) (m : RelayMode) (st : LoopState)
    (data : GoString) :
    (processLine d c m st data).doneRendered = (st.doneRendered || terminalLine data) := by
  unfold processLine terminalLine accepted payload
  repeat' split
  all_goals simp_all
  all_goals tauto

/-- One iteration appends to the text a contribution that depends on the line only. -/
theorem processLine_responseText (d : Deps) (c : Context) (m : RelayMode) (st : LoopState)
    (data : GoString) :
    (processLine d c m st data).responseText =
      st.responseText ++ (processLine d c m initState data).responseText := by
  unfold processLine
  repeat' split
  all_goals simp [initState, foldl_append_eq]


/-- The events sent by the loop are those sent for each line, in order. -/
theorem scanLoop_out (d : Deps) (c : Context) (m : RelayMode) (lines : List GoString)
    (st : LoopState) :
    (scanLoop d c m st lines).out =
      st.out ++ (lines.map (fun l => (processLine d c m initState l).out)).flatten := by
  induction lines generalizing st with
  | nil => simp [scanLoop]
  | cons l ls ih =>
    have h := ih (processLine d c m st l)
    simp only [scanLoop, List.foldl_cons] at h ⊢
    rw [h, processLine_out]
    simp [List.append_assoc]

/-- After the loop `doneRendered` holds when it held before or some line is terminal. -/
theorem scanLoop_doneRendered (d : Deps) (c : Context) (m : RelayMode) (lines : List GoString)
    (st : LoopState) :
    (scanLoop d c m st lines).doneRendered = (st.doneRendered || lines.any terminalLine) := by
  induction lines generalizing st with
  | nil => simp [scanLoop]
  | cons l ls ih =>
    have h := ih (processLine d c m st l)
    simp only [scanLoop, List.foldl_cons] at h ⊢
    rw [h, processLine_doneRendered]
    simp [Bool.or_assoc]

/-- The text accumulated by the loop is that of each line, in order. -/
theorem scanLoop_responseText (d : Deps) (c : Context) (m : RelayMode) (lines : List GoString)
    (st : LoopState) :
    (scanLoop d c m st lines).responseText =
      st.responseText ++
        (lines.map (fun l => (processLine d c m initState l).responseText)).flatten := by
  induction lines generalizing st with
  | nil => simp [scanLoop]
  | cons l ls ih =>
    have h := ih (processLine d c m st l)
    simp only [scanLoop, List.foldl_cons] at h ⊢
    rw [h, processLine_responseText]
    simp [List.append_assoc]

/-- A line `data: ` followed by a JSON object is not terminal. -/
theorem terminalLine_dataPrefix_lbrace (x : GoString) :
    terminalLine (dataPrefix ++ (lbrace ++ x)) = false := by
  simp [terminalLine, accepted, payload, HasPrefix, dataPrefix, dataPrefixLength, lbrace, done,
    List.isPrefixOf]

/-- The line sent for a chunk is the line received or `data: ` and a JSON object. -/
theorem maskedLine_cases (d : Deps) (c : Context) (data : GoString)
    (r : ChatCompletionsStreamResponse) :
    maskedLine d c data r = data ∨ ∃ x, maskedLine d c data r = dataPrefix ++ (lbrace ++ x) := by
  unfold maskedLine
  by_cases h : c.model_redirected = some true
  · rw [if_pos h]
    cases c.original_model with
    | none => exact Or.inl rfl
    | some a =>
      simp only [Deps.marshalChat]
      cases d.chatMembers { r with Model := a } with
      | none => exact Or.inl rfl
      | some mem => exact Or.inr ⟨mem ++ rbrace, by simp⟩
  · rw [if_neg h]
    exact Or.inl rfl


/-- The iteration on a terminal line (lines 44-48 of `main.go`). -/
theorem processLine_terminal (d : Deps) (c : Context) (m : RelayMode) (st : LoopState)
    (data : GoString) (h : terminalLine data = true) :
    processLine d c m st data =
      { st with out := st.out ++ [Render.StringData data], doneRendered := true } := by
  unfold terminalLine accepted payload at h
  simp only [Bool.and_eq_true, Bool.or_eq_true, decide_eq_true_eq, beq_iff_eq] at h
  obtain ⟨⟨h1, h2⟩, h3⟩ := h
  unfold processLine
  rw [if_neg (by omega), if_neg (by tauto), if_pos h3]

/-- The iteration on a line that the filters discard (lines 38-43 of `main.go`). -/
theorem processLine_not_accepted (d : Deps) (c : Context) (m : RelayMode) (st : LoopState)
    (data : GoString) (h : accepted data = false) : processLine d c m st data = st := by
  unfold accepted at h
  unfold processLine
  by_cases h1 : data.length < dataPrefixLength
  · rw [if_pos h1]
  · rw [if_neg h1, if_pos]
    have h2 : dataPrefixLength ≤ data.length := by omega
    simp [h2] at h
    exact h

/-- The iteration on an accepted non-terminal line (lines 49-98 of `main.go`). -/
theorem processLine_forward (d : Deps) (c : Context) (m : RelayMode) (st : LoopState)
    (data : GoString) (ha : accepted data = true) (ht : terminalLine data = false) :
    processLine d c m st data =
      match m with
      | RelayMode.ChatCompletions =>
        match d.unmarshalChat (payload data) with
        | none => { st with out := st.out ++ [Render.StringData data] }
        | some r =>
          if r.Choices.length = 0 ∧ r.Usage = none then st
          else
            { out := st.out ++ [Render.StringData (maskedLine d c data r)]
              responseText := st.responseText ++ chunkText d r
              usage := match r.Usage with
                | some u => some u
                | none => st.usage
              doneRendered := st.doneRendered }
      | RelayMode.Completions =>
        match d.unmarshalCompletions (payload data) with
        | none => { st with out := st.out ++ [Render.StringData data] }
        | some r =>
          { st with out := st.out ++ [Render.StringData data]
                    responseText := st.responseText ++ (r.Choices.map (fun ch => ch.Text)).flatten }
      | RelayMode.other => st := by
  have ht2 : HasPrefix (payload data) done = false := by
    simpa [terminalLine, ha] using ht
  unfold accepted at ha
  simp only [Bool.and_eq_true, Bool.or_eq_true, decide_eq_true_eq, beq_iff_eq] at ha
  obtain ⟨h1, h2⟩ := ha
  unfold payload at ht2
  unfold processLine
  rw [if_neg (by omega), if_neg (by tauto), if_neg (by simp [ht2])]
  cases m with
  | ChatCompletions =>
    simp only [payload, chunkText, foldl_append_eq]
  | Completions =>
    simp only [payload, foldl_append_eq]
  | other => rfl


/-- Every event sent for a line is the line itself or `data: ` and a JSON object. -/
theorem lineOut_shape (d : Deps) (c : Context) (m : RelayMode) (data : GoString) :
    ∀ e ∈ (processLine d c m initState data).out,
      e = Render.StringData data ∨ ∃ x, e = Render.StringData (dataPrefix ++ (lbrace ++ x)) := by
  intro e he
  by_cases ha : accepted data = true
  · by_cases ht : terminalLine data = true
    · rw [processLine_terminal d c m _ _ ht] at he
      simp [initState] at he
      exact Or.inl he
    · rw [processLine_forward d c m _ _ ha (by simpa using ht)] at he
      cases m with
      | ChatCompletions =>
        simp only at he
        cases hu : d.unmarshalChat (payload data) with
        | none =>
          rw [hu] at he
          simp [initState] at he
          exact Or.inl he
        | some r =>
          rw [hu] at he
          simp only at he
          split at he
          · simp [initState] at he
          · simp [initState] at he
            rcases maskedLine_cases d c data r with h | ⟨x, h⟩
            · rw [h] at he
              exact Or.inl he
            · rw [h] at he
              exact Or.inr ⟨x, he⟩
      | Completions =>
        simp only at he
        cases hu : d.unmarshalCompletions (payload data) with
        | none =>
          rw [hu] at he
          simp [initState] at he
          exact Or.inl he
        | some r =>
          rw [hu] at he
          simp [initState] at he
          exact Or.inl he
      | other => simp [initState] at he
  · rw [processLine_not_accepted d c m _ _ (by simpa using ha)] at he
    simp [initState] at he

/-- A line `data: ` followed by a JSON object does not begin with the sentinel. -/
theorem bareSentinel_dataPrefix_lbrace (x : GoString) :
    bareSentinel (dataPrefix ++ (lbrace ++ x)) = false := by
  simp [bareSentinel, HasPrefix, dataPrefix, lbrace, done, List.isPrefixOf]

/-- The terminal events sent for a line that does not begin with the sentinel itself:
the line when it is terminal, none otherwise. -/
theorem lineOut_terminal_events (d : Deps) (c : Context) (m : RelayMode) (data : GoString)
    (hb : bareSentinel data = false) :
    (processLine d c m initState data).out.filter Render.isTerminal =
      if terminalLine data = true then [Render.StringData data] else [] := by
  by_cases ht : terminalLine data = true
  · rw [if_pos ht, processLine_terminal d c m _ _ ht]
    simp [initState, Render.isTerminal, ht]
  · rw [if_neg ht, List.filter_eq_nil_iff]
    intro e he
    rcases lineOut_shape d c m data e he with h | ⟨x, h⟩
    · rw [h]
      simpa [Render.isTerminal, hb] using ht
    · rw [h]
      simp [Render.isTerminal, terminalLine_dataPrefix_lbrace, bareSentinel_dataPrefix_lbrace]

/-- When no line begins with the sentinel itself, the terminal events sent by the loop
are the terminal lines, in order. -/
theorem scanLoop_terminal_events (d : Deps) (c : Context) (m : RelayMode)
    (lines : List GoString) (hb : ∀ l ∈ lines, bareSentinel l = false) :
    (scanLoop d c m initState lines).out.filter Render.isTerminal =
      (lines.filter terminalLine).map Render.StringData := by
  rw [scanLoop_out]
  simp only [initState, List.nil_append]
  induction lines with
  | nil => simp
  | cons l ls ih =>
    simp only [List.map_cons, List.flatten_cons, List.filter_append]
    rw [ih (fun x hx => hb x (List.mem_cons_of_mem _ hx))]
    have h := lineOut_terminal_events d c m l (hb l (List.mem_cons_self _ _))
    simp only [initState] at h
    rw [h]
    by_cases ht : terminalLine l = true
    · simp [ht]
    · simp [ht]

/-- The loop never calls `render.Done`. -/
theorem scanLoop_no_Done (d : Deps) (c : Context) (m : RelayMode) (lines : List GoString) :
    Render.Done ∉ (scanLoop d c m initState lines).out := by
  rw [scanLoop_out]
  simp only [initState, List.nil_append, List.mem_flatten, List.mem_map]
  rintro ⟨out, ⟨l, _, rfl⟩, he⟩
  have h := lineOut_shape d c m l Render.Done
  simp only [initState] at h
  rcases h he with h | ⟨x, h⟩ <;> cases h


/-- C1 (as amended): for every sequence of upstream lines none of which begins with the
sentinel `[DONE]` itself, and every relay mode: if no line is one the loop treats as
terminal (accepted, with a payload that begins with `[DONE]`), the events sent to
the client are some non-terminal events followed by the synthetic event of
`render.Done`: exactly one terminal event, the synthetic one, sent last. -/
theorem StreamHandler_synthetic_done_when_no_terminal_line (d : Deps) (c : Context)
    (resp : StreamBody) (relayMode : RelayMode)
    (hb : ∀ l ∈ resp.lines, bareSentinel l = false)
    (h : ∀ l ∈ resp.lines, terminalLine l = false) :
    ∃ evs, (StreamHandler d c resp relayMode).out = evs ++ [Render.Done] ∧
      (∀ e ∈ evs, Render.isTerminal e = false) ∧
      ((StreamHandler d c resp relayMode).out.filter Render.isTerminal = [Render.Done]) := by
  have hd : (scanLoop d c relayMode initState resp.lines).doneRendered = false := by
    rw [scanLoop_doneRendered]
    simp only [initState, Bool.false_or, List.any_eq_false]
    intro l hl
    simp [h l hl]
  have hf := scanLoop_terminal_events d c relayMode resp.lines hb
  have hnil : resp.lines.filter terminalLine = [] := by
    rw [List.filter_eq_nil_iff]
    intro l hl
    simp [h l hl]
  rw [hnil, List.map_nil] at hf
  have hout : (StreamHandler d c resp relayMode).out =
      (scanLoop d c relayMode initState resp.lines).out ++ [Render.Done] := by
    unfold StreamHandler
    cases resp.closeErr <;> simp [hd]
  refine ⟨(scanLoop d c relayMode initState resp.lines).out, hout, ?_, ?_⟩
  · intro e he
    have := (List.filter_eq_nil_iff.mp hf) e he
    simpa using this
  · rw [hout, List.filter_append, hf]
    simp [Render.isTerminal]

/-- Witness of C1: a stream of one chat chunk and no terminal line. -/
theorem StreamHandler_synthetic_done_when_no_terminal_line_witness :
    (∀ l ∈ [dataPrefix ++ Example.chatPayload], bareSentinel l = false) ∧
    (∀ l ∈ [dataPrefix ++ Example.chatPayload], terminalLine l = false) ∧
    ∃ evs, (StreamHandler Example.deps Example.redirected
        { lines := [dataPrefix ++ Example.chatPayload], closeErr := none }
        RelayMode.ChatCompletions).out = evs ++ [Render.Done] ∧
      (∀ e ∈ evs, Render.isTerminal e = false) ∧
      ((StreamHandler Example.deps Example.redirected
        { lines := [dataPrefix ++ Example.chatPayload], closeErr := none }
        RelayMode.ChatCompletions).out.filter Render.isTerminal = [Render.Done]) :=
  ⟨by decide, by decide,
   StreamHandler_synthetic_done_when_no_terminal_line Example.deps Example.redirected
     { lines := [dataPrefix ++ Example.chatPayload], closeErr := none }
     RelayMode.ChatCompletions (by decide) (by decide)⟩

/-- C1 as stated fails, on two inputs in which no line carries `[DONE]` as its payload.
The line `data: [DONE]x` has the payload `[DONE]x`, yet the loop treats it as
terminal: in both relay modes the only event sent is that line and `render.Done` is
never called. The bare line `[DONE]` has an empty payload and is not treated as
terminal: in both relay modes it is forwarded and `render.Done` is called as well, so
the client is sent two terminal events. -/
theorem StreamHandler_done_with_suffix_counterexample :
    (∀ l ∈ ["data: [DONE]x".toList], carriesDone l = false) ∧
    (StreamHandler Example.deps Example.plain
        { lines := ["data: [DONE]x".toList], closeErr := none }
        RelayMode.ChatCompletions).out = [Render.StringData "data: [DONE]x".toList] ∧
    (StreamHandler Example.deps Example.plain
        { lines := ["data: [DONE]x".toList], closeErr := none }
        RelayMode.Completions).out = [Render.StringData "data: [DONE]x".toList] ∧
    (∀ l ∈ ["[DONE]".toList], carriesDone l = false ∧ terminalLine l = false) ∧
    (StreamHandler Example.deps Example.plain
        { lines := ["[DONE]".toList], closeErr := none }
        RelayMode.ChatCompletions).out = [Render.StringData "[DONE]".toList, Render.Done] ∧
    ((StreamHandler Example.deps Example.plain
        { lines := ["[DONE]".toList], closeErr := none }
        RelayMode.ChatCompletions).out.filter Render.isTerminal).length = 2 ∧
    ((StreamHandler Example.deps Example.plain
        { lines := ["[DONE]".toList], closeErr := none }
        RelayMode.Completions).out.filter Render.isTerminal).length = 2 := by
  decide

/-- C2 (as amended): for every sequence of upstream lines whose last line is
`data: [DONE]` and none of which begins with the sentinel `[DONE]` itself, and every
relay mode, the terminal events the client receives are the terminal lines of the
input, each forwarded verbatim and in order (at least one; exactly one, the last
line, when no earlier line is terminal; upstream duplicates are not removed), and no
synthetic terminal event is added. -/
theorem StreamHandler_forwards_each_terminal_line (d : Deps) (c : Context)
    (resp : StreamBody) (relayMode : RelayMode)
    (h : resp.lines.getLast? = some (dataPrefix ++ done))
    (hb : ∀ l ∈ resp.lines, bareSentinel l = false) :
    (StreamHandler d c resp relayMode).out.filter Render.isTerminal =
        (resp.lines.filter terminalLine).map Render.StringData ∧
      Render.StringData (dataPrefix ++ done) ∈ (StreamHandler d c resp relayMode).out ∧
      Render.Done ∉ (StreamHandler d c resp relayMode).out ∧
      ((∀ l ∈ resp.lines.dropLast, terminalLine l = false) →
        (StreamHandler d c resp relayMode).out.filter Render.isTerminal =
          [Render.StringData (dataPrefix ++ done)]) := by
  have hlast : terminalLine (dataPrefix ++ done) = true := by decide
  have hsplit : resp.lines.dropLast ++ [dataPrefix ++ done] = resp.lines :=
    List.dropLast_append_getLast? _ h
  have hmem : dataPrefix ++ done ∈ resp.lines := by
    rw [← hsplit]
    simp
  have hd : (scanLoop d c relayMode initState resp.lines).doneRendered = true := by
    rw [scanLoop_doneRendered]
    simp only [initState, Bool.false_or, List.any_eq_true]
    exact ⟨_, hmem, hlast⟩
  have hout : (StreamHandler d c resp relayMode).out =
      (scanLoop d c relayMode initState resp.lines).out := by
    unfold StreamHandler
    cases resp.closeErr <;> simp [hd]
  have hf := scanLoop_terminal_events d c relayMode resp.lines hb
  rw [hout]
  refine ⟨hf, ?_, scanLoop_no_Done d c relayMode resp.lines, ?_⟩
  · have : Render.StringData (dataPrefix ++ done) ∈
        (scanLoop d c relayMode initState resp.lines).out.filter Render.isTerminal := by
      rw [hf]
      exact List.mem_map.mpr ⟨_, List.mem_filter.mpr ⟨hmem, hlast⟩, rfl⟩
    exact (List.mem_filter.mp this).1
  · intro hearlier
    rw [hf, ← hsplit, List.filter_append]
    have hnil : resp.lines.dropLast.filter terminalLine = [] := by
      rw [List.filter_eq_nil_iff]
      intro l hl
      simp [hearlier l hl]
    rw [hnil]
    simp [hlast]

/-- Witness of C2: a chat chunk followed by `data: [DONE]`. -/
theorem StreamHandler_forwards_each_terminal_line_witness :
    (∀ l ∈ [dataPrefix ++ Example.chatPayload, dataPrefix ++ done], bareSentinel l = false) ∧
    (StreamHandler Example.deps Example.redirected
        { lines := [dataPrefix ++ Example.chatPayload, dataPrefix ++ done], closeErr := none }
        RelayMode.ChatCompletions).out.filter Render.isTerminal =
      [Render.StringData (dataPrefix ++ done)] :=
  ⟨by decide,
   (StreamHandler_forwards_each_terminal_line Example.deps Example.redirected
     { lines := [dataPrefix ++ Example.chatPayload, dataPrefix ++ done], closeErr := none }
     RelayMode.ChatCompletions (by decide) (by decide)).2.2.2 (by decide)⟩

/-- C2 as stated fails, on two inputs whose last line is `data: [DONE]`. When the input
is `data: [DONE]` twice, both lines are forwarded and the client receives two
terminal events, in both relay modes. When the input is the bare line `[DONE]`
followed by `data: [DONE]`, the bare line is not treated as terminal and is forwarded
too, so the client again receives two terminal events. -/
theorem StreamHandler_duplicate_done_counterexample :
    ["data: [DONE]".toList, "data: [DONE]".toList].getLast? = some "data: [DONE]".toList ∧
    (StreamHandler Example.deps Example.plain
        { lines := ["data: [DONE]".toList, "data: [DONE]".toList], closeErr := none }
        RelayMode.ChatCompletions).out =
      [Render.StringData "data: [DONE]".toList, Render.StringData "data: [DONE]".toList] ∧
    ((StreamHandler Example.deps Example.plain
        { lines := ["data: [DONE]".toList, "data: [DONE]".toList], closeErr := none }
        RelayMode.ChatCompletions).out.filter Render.isTerminal).length = 2 ∧
    ((StreamHandler Example.deps Example.plain
        { lines := ["data: [DONE]".toList, "data: [DONE]".toList], closeErr := none }
        RelayMode.Completions).out.filter Render.isTerminal).length = 2 ∧
    ["[DONE]".toList, "data: [DONE]".toList].getLast? = some "data: [DONE]".toList ∧
    terminalLine "[DONE]".toList = false ∧
    (StreamHandler Example.deps Example.plain
        { lines := ["[DONE]".toList, "data: [DONE]".toList], closeErr := none }
        RelayMode.ChatCompletions).out =
      [Render.StringData "[DONE]".toList, Render.StringData "data: [DONE]".toList] ∧
    ((StreamHandler Example.deps Example.plain
        { lines := ["[DONE]".toList, "data: [DONE]".toList], closeErr := none }
        RelayMode.ChatCompletions).out.filter Render.isTerminal).length = 2 ∧
    ((StreamHandler Example.deps Example.plain
        { lines := ["[DONE]".toList, "data: [DONE]".toList], closeErr := none }
        RelayMode.Completions).out.filter Render.isTerminal).length = 2 := by
  decide


/-- The text one line contributes in ChatCompletions mode. -/
theorem lineText_chat (d : Deps) (c : Context) (data : GoString) :
    (processLine d c RelayMode.ChatCompletions initState data).responseText =
      if (accepted data && !terminalLine data) = true then
        match d.unmarshalChat (payload data) with
        | some r => chunkText d r
        | none => []
      else [] := by
  by_cases ha : accepted data = true
  · by_cases ht : terminalLine data = true
    · rw [processLine_terminal d c _ _ _ ht]
      simp [initState, ha, ht]
    · have ht2 : terminalLine data = false := by simpa using ht
      rw [processLine_forward d c _ _ _ ha ht2]
      simp only [ha, ht2, Bool.not_false, Bool.and_self, if_true]
      cases hu : d.unmarshalChat (payload data) with
      | none => simp [initState]
      | some r =>
        simp only
        split
        · rename_i hz
          have : r.Choices = [] := List.length_eq_zero.mp hz.1
          simp [initState, chunkText, this]
        · simp [initState]
  · have ha2 : accepted data = false := by simpa using ha
    rw [processLine_not_accepted d c _ _ _ ha2]
    simp [initState, ha2]

/-- Unfolding of `expectedChatText` on a non-empty input. -/
theorem expectedChatText_cons (d : Deps) (l : GoString) (ls : List GoString) :
    expectedChatText d (l :: ls) =
      (if (accepted l && !terminalLine l) = true then
        match d.unmarshalChat (payload l) with
        | some r => chunkText d r
        | none => []
      else []) ++ expectedChatText d ls := by
  unfold expectedChatText
  by_cases h : (accepted l && !terminalLine l) = true
  · rw [if_pos h]
    cases hu : d.unmarshalChat (payload l) with
    | none => simp [List.filter_cons, h, List.filterMap_cons, hu]
    | some r => simp [List.filter_cons, h, List.filterMap_cons, hu]
  · rw [if_neg h]
    simp [List.filter_cons, h]

/-- C3: in ChatCompletions mode, when the upstream body closes without error, the
returned response text is the concatenation, in arrival order of the lines and in
choice order within a line, of the delta contents of every choice of every accepted
non-terminal line whose payload decodes; every other line contributes nothing. -/
theorem StreamHandler_chat_text_is_ordered_concatenation (d : Deps) (c : Context)
    (lines : List GoString) :
    (StreamHandler d c { lines := lines, closeErr := none }
        RelayMode.ChatCompletions).responseText = expectedChatText d lines := by
  have h : (StreamHandler d c { lines := lines, closeErr := none }
      RelayMode.ChatCompletions).responseText =
      (scanLoop d c RelayMode.ChatCompletions initState lines).responseText := rfl
  rw [h, scanLoop_responseText]
  clear h
  simp only [initState, List.nil_append]
  induction lines with
  | nil => simp [expectedChatText]
  | cons l ls ih =>
    rw [List.map_cons, List.flatten_cons, ih, expectedChatText_cons]
    have hl := lineText_chat d c l
    simp only [initState] at hl
    rw [hl]

/-- C4: in ChatCompletions mode with `model_redirected = true` and `original_model = a`,
an accepted non-terminal line whose payload decodes to a chunk with a choice or a
usage is never dropped: right after the events of the lines before it, the client is
sent `data: ` followed by the encoding of the chunk with its model set to `a`, or the
line itself when that encoding fails. -/
theorem StreamHandler_masks_model_of_forwarded_chunk (d : Deps) (c : Context)
    (before after : List GoString) (data a : GoString) (r : ChatCompletionsStreamResponse)
    (closeErr : Option GoError)
    (hred : c.model_redirected = some true) (horig : c.original_model = some a)
    (ha : accepted data = true) (ht : terminalLine data = false)
    (hdec : d.unmarshalChat (payload data) = some r)
    (hne : r.Choices ≠ [] ∨ r.Usage ≠ none) :
    ∃ rest, (StreamHandler d c { lines := before ++ data :: after, closeErr := closeErr }
        RelayMode.ChatCompletions).out =
      (scanLoop d c RelayMode.ChatCompletions initState before).out ++
        Render.StringData (rewrittenLine d a data r) :: rest := by
  have hline : (processLine d c RelayMode.ChatCompletions initState data).out =
      [Render.StringData (rewrittenLine d a data r)] := by
    rw [processLine_forward d c _ _ _ ha ht]
    simp only [hdec]
    have hcond : ¬ (r.Choices.length = 0 ∧ r.Usage = none) := by
      rintro ⟨h1, h2⟩
      rcases hne with h | h
      · exact h (List.length_eq_zero.mp h1)
      · exact h h2
    rw [if_neg hcond]
    simp only [initState, List.nil_append, maskedLine, hred, horig, rewrittenLine, if_true]
    cases d.marshalChat { r with Model := a } <;> rfl
  have hscan : (scanLoop d c RelayMode.ChatCompletions initState (before ++ data :: after)).out =
      (scanLoop d c RelayMode.ChatCompletions initState before).out ++
        Render.StringData (rewrittenLine d a data r) ::
          (after.map (fun l =>
            (processLine d c RelayMode.ChatCompletions initState l).out)).flatten := by
    rw [scanLoop_out, scanLoop_out]
    simp only [List.map_append, List.map_cons, List.flatten_append, List.flatten_cons, hline,
      List.append_assoc, List.singleton_append]
  unfold StreamHandler
  simp only
  rw [hscan]
  cases closeErr <;> simp only <;> split <;> simp


/-- Witness of C4: the chunk `chatPayload` under redirection from `A` to `B`, followed
by `data: [DONE]`. -/
theorem StreamHandler_masks_model_of_forwarded_chunk_witness :
    Example.deps.unmarshalChat (payload (dataPrefix ++ Example.chatPayload)) =
        some Example.chatChunk ∧
    ∃ rest, (StreamHandler Example.deps Example.redirected
        { lines := [] ++ (dataPrefix ++ Example.chatPayload) :: [dataPrefix ++ done],
          closeErr := none } RelayMode.ChatCompletions).out =
      (scanLoop Example.deps Example.redirected RelayMode.ChatCompletions initState []).out ++
        Render.StringData (rewrittenLine Example.deps "A".toList
          (dataPrefix ++ Example.chatPayload) Example.chatChunk) :: rest :=
  ⟨by decide,
   StreamHandler_masks_model_of_forwarded_chunk Example.deps Example.redirected []
     [dataPrefix ++ done] (dataPrefix ++ Example.chatPayload) "A".toList Example.chatChunk none
     rfl rfl (by decide) (by decide) (by decide) (by decide)⟩

/-- The events sent for one line in ChatCompletions mode under redirection. -/
theorem lineOut_chat_redirected (d : Deps) (c : Context) (a l : GoString)
    (hred : c.model_redirected = some true) (horig : c.original_model = some a) :
    ∀ e ∈ (processLine d c RelayMode.ChatCompletions initState l).out,
      (e = Render.StringData l ∧
        (terminalLine l = true ∨ d.unmarshalChat (payload l) = none ∨
          ∃ r, d.unmarshalChat (payload l) = some r ∧
            d.marshalChat { r with Model := a } = none)) ∨
      (∃ r m, d.unmarshalChat (payload l) = some r ∧
        d.marshalChat { r with Model := a } = some m ∧
        e = Render.StringData (dataPrefix ++ m)) := by
  intro e he
  by_cases ha : accepted l = true
  · by_cases ht : terminalLine l = true
    · rw [processLine_terminal d c _ _ _ ht] at he
      simp [initState] at he
      exact Or.inl ⟨he, Or.inl ht⟩
    · rw [processLine_forward d c _ _ _ ha (by simpa using ht)] at he
      simp only at he
      cases hu : d.unmarshalChat (payload l) with
      | none =>
        rw [hu] at he
        simp [initState] at he
        exact Or.inl ⟨he, Or.inr (Or.inl rfl)⟩
      | some r =>
        rw [hu] at he
        simp only at he
        split at he
        · simp [initState] at he
        · simp only [initState, List.nil_append, List.mem_singleton, maskedLine, hred, horig,
            if_true] at he
          cases hm : d.marshalChat { r with Model := a } with
          | none =>
            rw [hm] at he
            exact Or.inl ⟨he, Or.inr (Or.inr ⟨r, rfl, hm⟩)⟩
          | some m =>
            rw [hm] at he
            exact Or.inr ⟨r, m, rfl, hm, he⟩
  · rw [processLine_not_accepted d c _ _ _ (by simpa using ha)] at he
    simp [initState] at he

/-- The events sent for one line in Completions mode. -/
theorem lineOut_completions (d : Deps) (c : Context) (l : GoString) :
    (processLine d c RelayMode.Completions initState l).out =
      if accepted l = true then [Render.StringData l] else [] := by
  by_cases ha : accepted l = true
  · rw [if_pos ha]
    by_cases ht : terminalLine l = true
    · rw [processLine_terminal d c _ _ _ ht]
      simp [initState]
    · rw [processLine_forward d c _ _ _ ha (by simpa using ht)]
      simp only
      cases d.unmarshalCompletions (payload l) <;> simp [initState]
  · rw [if_neg ha, processLine_not_accepted d c _ _ _ (by simpa using ha)]
    simp [initState]

/-- The events `StreamHandler` sends: those of the loop, then `render.Done` unless a line was terminal. -/
theorem StreamHandler_out (d : Deps) (c : Context) (resp : StreamBody) (m : RelayMode) :
    (StreamHandler d c resp m).out =
      (resp.lines.map (fun l => (processLine d c m initState l).out)).flatten ++
        (if resp.lines.any terminalLine = true then [] else [Render.Done]) := by
  have h1 := scanLoop_out d c m resp.lines initState
  have h2 := scanLoop_doneRendered d c m resp.lines initState
  simp only [initState, List.nil_append, Bool.false_or] at h1 h2
  unfold StreamHandler
  simp only [initState]
  cases resp.closeErr <;> simp only [h1, h2] <;>
    cases resp.lines.any terminalLine <;> simp

/-- C5 (as amended): under redirection with original model `a`, in ChatCompletions mode
every event sent to the client is the synthetic terminal event, or the encoding,
after `data: `, of a decoded chunk with its model set to `a`, or an input line
forwarded as received because it is terminal, fails to decode, or fails to
re-encode; in Completions mode no masking is applied: every accepted line is
forwarded as received. -/
theorem StreamHandler_masking_by_relay_mode (d : Deps) (c : Context)
    (lines : List GoString) (closeErr : Option GoError) (a : GoString)
    (hred : c.model_redirected = some true) (horig : c.original_model = some a) :
    (∀ e ∈ (StreamHandler d c { lines := lines, closeErr := closeErr }
          RelayMode.ChatCompletions).out,
      e = Render.Done ∨
      (∃ l ∈ lines, e = Render.StringData l ∧
        (terminalLine l = true ∨ d.unmarshalChat (payload l) = none ∨
          ∃ r, d.unmarshalChat (payload l) = some r ∧
            d.marshalChat { r with Model := a } = none)) ∨
      (∃ l ∈ lines, ∃ r m, d.unmarshalChat (payload l) = some r ∧
        d.marshalChat { r with Model := a } = some m ∧
        e = Render.StringData (dataPrefix ++ m))) ∧
    (StreamHandler d c { lines := lines, closeErr := closeErr } RelayMode.Completions).out =
      (lines.filter accepted).map Render.StringData ++
        (if lines.any terminalLine = true then [] else [Render.Done]) := by
  constructor
  · intro e he
    rw [StreamHandler_out, List.mem_append] at he
    rcases he with he | he
    · simp only [List.mem_flatten, List.mem_map] at he
      obtain ⟨out, ⟨l, hl, rfl⟩, he⟩ := he
      rcases lineOut_chat_redirected d c a l hred horig e he with h | ⟨r, m, h1, h2, h3⟩
      · exact Or.inr (Or.inl ⟨l, hl, h⟩)
      · exact Or.inr (Or.inr ⟨l, hl, r, m, h1, h2, h3⟩)
    · left
      split at he
      · simp at he
      · simpa using he
  · rw [StreamHandler_out]
    congr 1
    simp only [lineOut_completions]
    induction lines with
    | nil => simp
    | cons l ls ih =>
      by_cases ha : accepted l = true
      · simp [List.filter_cons, ha, ih]
      · simp [List.filter_cons, ha, ih]

/-- Witness of C5: a chat chunk and a legacy chunk under redirection from `A` to `B`. -/
theorem StreamHandler_masking_by_relay_mode_witness :
    (StreamHandler Example.deps Example.redirected
        { lines := [dataPrefix ++ Example.completionsPayload], closeErr := none }
        RelayMode.Completions).out =
      ([dataPrefix ++ Example.completionsPayload].filter accepted).map Render.StringData ++
        (if [dataPrefix ++ Example.completionsPayload].any terminalLine = true then []
         else [Render.Done]) :=
  (StreamHandler_masking_by_relay_mode Example.deps Example.redirected
    [dataPrefix ++ Example.completionsPayload] none "A".toList rfl rfl).2

/-- C5 as stated fails in Completions mode: under redirection from `A` to `B`, the line
whose payload `{"model":"B","choices":[{"text":"Hi"}]}` reports model `B` is sent to
the client byte for byte, so the client observes `B`. -/
theorem StreamHandler_completions_unmasked_counterexample :
    Example.redirected.model_redirected = some true ∧
    Example.redirected.original_model = some "A".toList ∧
    Example.redirected.target_model = some "B".toList ∧
    (modelField "B".toList).isPrefixOf (Example.completionsPayload.drop 1) = true ∧
    (StreamHandler Example.deps Example.redirected
        { lines := [dataPrefix ++ Example.completionsPayload], closeErr := none }
        RelayMode.Completions).out =
      [Render.StringData (dataPrefix ++ Example.completionsPayload), Render.Done] := by
  decide


/-- No wrap-around inside the signed 64-bit range. -/
theorem wrapInt64_of_inRange (x : Int) (h1 : -(2 ^ 63) ≤ x) (h2 : x < 2 ^ 63) :
    wrapInt64 x = x := by
  unfold wrapInt64
  rw [Int.emod_eq_of_lt (by omega) (by omega)]
  omega

/-- A Go sum of counts that are not negative is exact while it stays below `2^63`. -/
theorem foldl_goAdd_exact (counts : List Int) (acc : Int) (hacc : 0 ≤ acc)
    (hpos : ∀ n ∈ counts, 0 ≤ n) (hlt : acc + counts.sum < 2 ^ 63) :
    counts.foldl goAdd acc = acc + counts.sum := by
  induction counts generalizing acc with
  | nil => simp
  | cons n ns ih =>
    have hn : 0 ≤ n := hpos n (List.mem_cons_self _ _)
    have hns : ∀ k ∈ ns, 0 ≤ k := fun k hk => hpos k (List.mem_cons_of_mem _ hk)
    have hsum : 0 ≤ ns.sum := List.sum_nonneg hns
    rw [List.sum_cons] at hlt
    have hstep : goAdd acc n = acc + n := by
      unfold goAdd
      exact wrapInt64_of_inRange _ (by omega) (by omega)
    rw [List.foldl_cons, hstep, ih (acc + n) (by omega) hns (by omega), List.sum_cons]
    omega

/-- The recomputed usage (lines 192-200 of `main.go`). -/
theorem finalUsage_recomputed (d : Deps) (textResponse : SlimTextResponse) (promptTokens : Int)
    (modelName : GoString)
    (h : textResponse.Usage.TotalTokens = 0 ∨
      (textResponse.Usage.PromptTokens = 0 ∧ textResponse.Usage.CompletionTokens = 0)) :
    finalUsage d textResponse promptTokens modelName =
      { PromptTokens := promptTokens
        CompletionTokens := goSum (choiceCounts d textResponse modelName)
        TotalTokens := goAdd promptTokens (goSum (choiceCounts d textResponse modelName)) } := by
  unfold finalUsage
  rw [if_pos h]
  simp only [goSum, choiceCounts, List.foldl_map]

/-- The function `Handler` past its four early returns (lines 138-202 of `main.go`). -/
theorem Handler_decoded (d : Deps) (c : Context) (w : Writer)
    (copyFail : Option (Nat × GoError)) (resp : Response) (promptTokens : Int)
    (modelName : GoString) (textResponse : SlimTextResponse)
    (hread : resp.readErr = none) (hclose : resp.closeErr = none)
    (hdec : d.unmarshalSlim resp.Body = Except.ok textResponse)
    (herr : textResponse.Error.Type_ = []) :
    Handler d c w copyFail resp promptTokens modelName =
      match copyFail with
      | some (n, err) =>
        { writer := ((resp.Header.foldl (fun acc e => Writer.Set d acc e.key e.first) w).WriteHeader
            resp.StatusCode).Write ((maskedBody d c resp.Body).take n)
          err := some (ErrorWrapper err code_copy_response_body_failed StatusInternalServerError)
          usage := none }
      | none =>
        { writer := ((resp.Header.foldl (fun acc e => Writer.Set d acc e.key e.first) w).WriteHeader
            resp.StatusCode).Write (maskedBody d c resp.Body)
          err := none
          usage := some (finalUsage d textResponse promptTokens modelName) } := by
  unfold Handler
  simp only [hread, hclose, hdec, herr, ne_eq, not_true_eq_false, if_false]

/-- Setting headers and the status code writes no body byte. -/
theorem Writer_after_headers_Body (d : Deps) (hs : List HeaderEntry) (w : Writer) (code : Int)
    (p : GoString) :
    (((hs.foldl (fun acc e => Writer.Set d acc e.key e.first) w).WriteHeader code).Write p).Body =
      w.Body ++ p := by
  have h : ∀ (w : Writer), (hs.foldl (fun acc e => Writer.Set d acc e.key e.first) w).Body = w.Body := by
    induction hs with
    | nil => intro w; rfl
    | cons e es ih =>
      intro w
      rw [List.foldl_cons, ih]
      rfl
  simp only [Writer.Write, Writer.WriteHeader, h]


/-- C6: when the context has `model_redirected = true` and `original_model = a`, the
upstream body decodes with an empty error type, and it decodes as a full
`TextResponse` with a non-empty model, the body `Handler` writes to the client is the
encoding of that response with its model set to `a`, or the unchanged upstream body
when the encoding fails: all of it when the copy completes, its first `n` bytes when
the copy stops with an error after `n` bytes. -/
theorem Handler_masks_model_of_decoded_body (d : Deps) (c : Context) (w : Writer)
    (copyFail : Option (Nat × GoError)) (resp : Response) (promptTokens : Int)
    (modelName a : GoString) (textResponse : SlimTextResponse) (full : TextResponse)
    (hread : resp.readErr = none) (hclose : resp.closeErr = none)
    (hdec : d.unmarshalSlim resp.Body = Except.ok textResponse)
    (herr : textResponse.Error.Type_ = [])
    (hred : c.model_redirected = some true) (horig : c.original_model = some a)
    (hfull : d.unmarshalText resp.Body = some full) (hmodel : full.Model ≠ []) :
    maskedBody d c resp.Body = (d.marshalText { full with Model := a }).getD resp.Body ∧
    (copyFail = none →
      (Handler d c w copyFail resp promptTokens modelName).writer.Body =
        w.Body ++ (d.marshalText { full with Model := a }).getD resp.Body) ∧
    (∀ n err, copyFail = some (n, err) →
      (Handler d c w copyFail resp promptTokens modelName).writer.Body =
        w.Body ++ ((d.marshalText { full with Model := a }).getD resp.Body).take n) := by
  have hbody : maskedBody d c resp.Body =
      (d.marshalText { full with Model := a }).getD resp.Body := by
    unfold maskedBody
    simp only [hred, horig, hfull, if_true, ne_eq, hmodel, not_false_eq_true]
    cases d.marshalText { full with Model := a } <;> rfl
  rw [Handler_decoded d c w copyFail resp promptTokens modelName textResponse hread hclose
    hdec herr]
  refine ⟨hbody, ?_, ?_⟩
  · intro hc
    subst hc
    simp only [Writer_after_headers_Body, hbody]
  · intro n err hc
    subst hc
    simp only [Writer_after_headers_Body, hbody]

/-- Witness of C6: the body `bodyUsage`, which reports model `B`, under redirection from
`A` to `B`; the client receives the encoding with model `A`. -/
theorem Handler_masks_model_of_decoded_body_witness :
    (Handler Example.deps Example.redirected Example.emptyWriter none
        (Example.response Example.bodyUsage) 10 "B".toList).writer.Body =
      Example.emptyWriter.Body ++
        (Example.deps.marshalText
          { Id := [], Model := "A".toList, Object := [], Created := 0,
            Choices := Example.twoChoices, Usage := Example.upstreamUsage }).getD
          (Example.response Example.bodyUsage).Body :=
  (Handler_masks_model_of_decoded_body Example.deps Example.redirected Example.emptyWriter none
    (Example.response Example.bodyUsage) 10 "B".toList "A".toList
    { Choices := Example.twoChoices, Usage := Example.upstreamUsage, Error := Example.noError }
    { Id := [], Model := "B".toList, Object := [], Created := 0,
      Choices := Example.twoChoices, Usage := Example.upstreamUsage }
    rfl rfl rfl rfl rfl rfl (by decide) (by decide)).2.1 rfl

/-- C7 (as amended): when the upstream body decodes with an empty error type, the
decoded usage has `TotalTokens = 0` or both `PromptTokens = 0` and
`CompletionTokens = 0`, and the copy of the body to the client succeeds, the returned
usage has the caller's `promptTokens`, the sum over all choices of
`CountTokenText(content, modelName)` as completion tokens, and their sum as total,
the sums being those of Go `int`; they are the exact sums when the counts are not
negative and the total is below `2^63`. -/
theorem Handler_recomputes_untrusted_usage (d : Deps) (c : Context) (w : Writer)
    (resp : Response) (promptTokens : Int) (modelName : GoString)
    (textResponse : SlimTextResponse)
    (hread : resp.readErr = none) (hclose : resp.closeErr = none)
    (hdec : d.unmarshalSlim resp.Body = Except.ok textResponse)
    (herr : textResponse.Error.Type_ = [])
    (hzero : textResponse.Usage.TotalTokens = 0 ∨
      (textResponse.Usage.PromptTokens = 0 ∧ textResponse.Usage.CompletionTokens = 0)) :
    (Handler d c w none resp promptTokens modelName).usage =
      some { PromptTokens := promptTokens
             CompletionTokens := goSum (choiceCounts d textResponse modelName)
             TotalTokens := goAdd promptTokens (goSum (choiceCounts d textResponse modelName)) } ∧
    ((0 ≤ promptTokens ∧ (∀ n ∈ choiceCounts d textResponse modelName, 0 ≤ n) ∧
        promptTokens + (choiceCounts d textResponse modelName).sum < 2 ^ 63) →
      (Handler d c w none resp promptTokens modelName).usage =
        some { PromptTokens := promptTokens
               CompletionTokens := (choiceCounts d textResponse modelName).sum
               TotalTokens := promptTokens + (choiceCounts d textResponse modelName).sum }) := by
  have hres : (Handler d c w none resp promptTokens modelName).usage =
      some { PromptTokens := promptTokens
             CompletionTokens := goSum (choiceCounts d textResponse modelName)
             TotalTokens :=
               goAdd promptTokens (goSum (choiceCounts d textResponse modelName)) } := by
    rw [Handler_decoded d c w none resp promptTokens modelName textResponse hread hclose hdec
      herr]
    simp only [finalUsage_recomputed d textResponse promptTokens modelName hzero]
  refine ⟨hres, ?_⟩
  rintro ⟨hp, hpos, hlt⟩
  have hsum0 : 0 ≤ (choiceCounts d textResponse modelName).sum := List.sum_nonneg hpos
  have hs : goSum (choiceCounts d textResponse modelName) =
      (choiceCounts d textResponse modelName).sum := by
    unfold goSum
    rw [foldl_goAdd_exact _ 0 (le_refl 0) hpos (by omega)]
    omega
  have ht : goAdd promptTokens (choiceCounts d textResponse modelName).sum =
      promptTokens + (choiceCounts d textResponse modelName).sum := by
    unfold goAdd
    exact wrapInt64_of_inRange _ (by omega) (by omega)
  rw [hres, hs, ht]

/-- Witness of C7: two choices that count 5 and 7 and a supplied prompt count of 10
give the usage `{10, 12, 22}`. -/
theorem Handler_recomputes_untrusted_usage_witness :
    choiceCounts Example.deps
        { Choices := Example.twoChoices, Usage := Example.zeroUsage, Error := Example.noError }
        "B".toList = [5, 7] ∧
    (Handler Example.deps Example.plain Example.emptyWriter none
        (Example.response Example.bodyNoUsage) 10 "B".toList).usage =
      some { PromptTokens := 10, CompletionTokens := 12, TotalTokens := 22 } :=
  ⟨by decide,
   (Handler_recomputes_untrusted_usage Example.deps Example.plain Example.emptyWriter
     (Example.response Example.bodyNoUsage) 10 "B".toList
     { Choices := Example.twoChoices, Usage := Example.zeroUsage, Error := Example.noError }
     rfl rfl rfl rfl (Or.inl rfl)).2 (by decide)⟩

/-- C7 as stated fails: the body `bodyNoUsage` decodes with an empty error type and a
usage that is all zero, but when the copy to the client breaks `Handler` returns the
error `copy_response_body_failed` and no usage at all. -/
theorem Handler_usage_lost_on_copy_failure_counterexample :
    Example.deps.unmarshalSlim (Example.response Example.bodyNoUsage).Body =
        Except.ok { Choices := Example.twoChoices, Usage := Example.zeroUsage,
                    Error := Example.noError } ∧
    (Handler Example.deps Example.plain Example.emptyWriter (some (0, "broken pipe".toList))
        (Example.response Example.bodyNoUsage) 10 "B".toList).usage = none ∧
    (Handler Example.deps Example.plain Example.emptyWriter (some (0, "broken pipe".toList))
        (Example.response Example.bodyNoUsage) 10 "B".toList).err =
      some (ErrorWrapper "broken pipe".toList code_copy_response_body_failed
        StatusInternalServerError) :=
  ⟨rfl, by decide, by decide⟩

/-- C8: when `Handler` returns without error and the decoded upstream usage has
`TotalTokens ≠ 0` and not both `PromptTokens = 0` and `CompletionTokens = 0`, the
returned usage is the upstream usage in all three fields, whatever the supplied
`promptTokens`, the choices, the model name and the token counter. -/
theorem Handler_returns_trusted_usage_unchanged (d : Deps) (c : Context) (w : Writer)
    (copyFail : Option (Nat × GoError)) (resp : Response) (promptTokens : Int)
    (modelName : GoString) (textResponse : SlimTextResponse)
    (hok : (Handler d c w copyFail resp promptTokens modelName).err = none)
    (hdec : d.unmarshalSlim resp.Body = Except.ok textResponse)
    (htotal : textResponse.Usage.TotalTokens ≠ 0)
    (hboth : ¬ (textResponse.Usage.PromptTokens = 0 ∧ textResponse.Usage.CompletionTokens = 0)) :
    (Handler d c w copyFail resp promptTokens modelName).usage = some textResponse.Usage := by
  unfold Handler at hok ⊢
  cases hr : resp.readErr with
  | some e => simp [hr] at hok
  | none =>
    cases hc : resp.closeErr with
    | some e => simp [hr, hc] at hok
    | none =>
      simp only [hr, hc, hdec] at hok ⊢
      by_cases herr : textResponse.Error.Type_ = []
      · simp only [herr, ne_eq, not_true_eq_false, if_false] at hok ⊢
        cases copyFail with
        | some p => simp at hok
        | none =>
          simp only [finalUsage]
          rw [if_neg (by tauto)]
      · simp [herr] at hok

/-- Witness of C8: the upstream usage `{10, 5, 15}` is returned unchanged although the
supplied prompt count is 99. -/
theorem Handler_returns_trusted_usage_unchanged_witness :
    (Handler Example.deps Example.plain Example.emptyWriter none
        (Example.response Example.bodyUsage) 99 "B".toList).usage =
      some { PromptTokens := 10, CompletionTokens := 5, TotalTokens := 15 } :=
  Handler_returns_trusted_usage_unchanged Example.deps Example.plain Example.emptyWriter none
    (Example.response Example.bodyUsage) 99 "B".toList
    { Choices := Example.twoChoices, Usage := Example.upstreamUsage, Error := Example.noError }
    (by decide) rfl (by decide) (by decide)

/-- C9: whenever reading, closing or decoding the upstream body fails, `Handler` returns
a wrapped error of status 500 with the matching code and a nil usage, and the client
writer is exactly as before the call: no header, no status code, no body byte. -/
theorem Handler_no_write_on_upstream_failure (d : Deps) (c : Context) (w : Writer)
    (copyFail : Option (Nat × GoError)) (resp : Response) (promptTokens : Int)
    (modelName : GoString)
    (h : resp.readErr ≠ none ∨ resp.closeErr ≠ none ∨
      ∃ e, d.unmarshalSlim resp.Body = Except.error e) :
    (Handler d c w copyFail resp promptTokens modelName).writer = w ∧
    (Handler d c w copyFail resp promptTokens modelName).usage = none ∧
    ∃ err code, (Handler d c w copyFail resp promptTokens modelName).err =
        some (ErrorWrapper err code StatusInternalServerError) ∧
      (code = code_read_response_body_failed ∨ code = code_close_response_body_failed ∨
        code = code_unmarshal_response_body_failed) := by
  unfold Handler
  cases hr : resp.readErr with
  | some e => exact ⟨rfl, rfl, e, _, rfl, Or.inl rfl⟩
  | none =>
    cases hc : resp.closeErr with
    | some e => exact ⟨rfl, rfl, e, _, rfl, Or.inr (Or.inl rfl)⟩
    | none =>
      rcases h with h | h | ⟨e, h⟩
      · exact absurd hr h
      · exact absurd hc h
      · rw [h]
        exact ⟨rfl, rfl, e, _, rfl, Or.inr (Or.inr rfl)⟩

/-- Witness of C9: a body that does not decode, on a writer that already holds a
header. -/
theorem Handler_no_write_on_upstream_failure_witness :
    (Handler Example.deps Example.redirected
        { Header := [("X-Request-Id".toList, ["7".toList])], Status := none, Body := [] } none
        (Example.response "not json".toList) 10 "B".toList).writer =
      { Header := [("X-Request-Id".toList, ["7".toList])], Status := none, Body := [] } :=
  (Handler_no_write_on_upstream_failure Example.deps Example.redirected
    { Header := [("X-Request-Id".toList, ["7".toList])], Status := none, Body := [] } none
    (Example.response "not json".toList) 10 "B".toList
    (Or.inr (Or.inr ⟨"invalid character".toList, rfl⟩))).1

/-- C10: when the upstream body decodes and its error type is not empty, `Handler`
returns the decoded upstream error with the status code of the upstream response and
a nil usage, and leaves the client writer untouched (no masked body, no header, no
status), whatever the redirection context, the connection, the usage and the choices
in the body. -/
theorem Handler_upstream_error_short_circuits (d : Deps) (c : Context) (w : Writer)
    (copyFail : Option (Nat × GoError)) (resp : Response) (promptTokens : Int)
    (modelName : GoString) (textResponse : SlimTextResponse)
    (hread : resp.readErr = none) (hclose : resp.closeErr = none)
    (hdec : d.unmarshalSlim resp.Body = Except.ok textResponse)
    (herr : textResponse.Error.Type_ ≠ []) :
    Handler d c w copyFail resp promptTokens modelName =
      { writer := w
        err := some { Error := textResponse.Error, StatusCode := resp.StatusCode }
        usage := none } := by
  unfold Handler
  simp only [hread, hclose, hdec, herr, ne_eq, not_false_eq_true, if_true]

/-- Witness of C10: an upstream `429` whose body is a rate-limit error, under
redirection. -/
theorem Handler_upstream_error_short_circuits_witness :
    Handler Example.deps Example.redirected Example.emptyWriter none
        { StatusCode := 429, Header := [], Body := Example.bodyError, readErr := none,
          closeErr := none } 10 "B".toList =
      { writer := Example.emptyWriter
        err := some { Error := Example.upstreamError, StatusCode := 429 }
        usage := none } :=
  Handler_upstream_error_short_circuits Example.deps Example.redirected Example.emptyWriter none
    { StatusCode := 429, Header := [], Body := Example.bodyError, readErr := none,
      closeErr := none } 10 "B".toList
    { Choices := [], Usage := Example.zeroUsage, Error := Example.upstreamError }
    rfl rfl rfl (by decide)


/-- The loop on a line in the middle of the input: the iteration on that line runs on
the state left by the lines before it, and the loop goes on with the lines after. -/
theorem scanLoop_middle (d : Deps) (c : Context) (m : RelayMode) (st : LoopState)
    (before after : List GoString) (data : GoString) :
    scanLoop d c m st (before ++ data :: after) =
      scanLoop d c m (processLine d c m (scanLoop d c m st before) data) after := by
  simp only [scanLoop, List.foldl_append, List.foldl_cons]

/-- C11 (as amended): in ChatCompletions mode an accepted non-terminal line whose payload
decodes to a chunk with zero choices and no usage is never sent to the client and
does not stop the scan: the whole result of `StreamHandler` (events sent, error,
text, usage) is the one of the input without that line. In Completions mode the same
line is sent to the client as received. -/
theorem StreamHandler_drops_empty_chat_chunk (d : Deps) (c : Context)
    (before after : List GoString) (data : GoString) (r : ChatCompletionsStreamResponse)
    (closeErr : Option GoError)
    (ha : accepted data = true) (ht : terminalLine data = false)
    (hdec : d.unmarshalChat (payload data) = some r)
    (hchoices : r.Choices = []) (husage : r.Usage = none) :
    StreamHandler d c { lines := before ++ data :: after, closeErr := closeErr }
        RelayMode.ChatCompletions =
      StreamHandler d c { lines := before ++ after, closeErr := closeErr }
        RelayMode.ChatCompletions ∧
    Render.StringData data ∉
      (processLine d c RelayMode.ChatCompletions initState data).out ∧
    (∀ st, (processLine d c RelayMode.Completions st data).out =
      st.out ++ [Render.StringData data]) := by
  have hskip : ∀ st, processLine d c RelayMode.ChatCompletions st data = st := by
    intro st
    rw [processLine_forward d c _ _ _ ha ht]
    simp only [hdec, hchoices, husage, List.length_nil, and_self, if_true]
  refine ⟨?_, ?_, ?_⟩
  · have hloop : scanLoop d c RelayMode.ChatCompletions initState (before ++ data :: after) =
        scanLoop d c RelayMode.ChatCompletions initState (before ++ after) := by
      rw [scanLoop_middle, hskip]
      simp only [scanLoop, List.foldl_append]
    unfold StreamHandler
    simp only [hloop]
  · rw [hskip]
    simp [initState]
  · intro st
    rw [processLine_out, lineOut_completions, if_pos ha]

/-- Witness of C11: the keep-alive line `data: {"choices":[]}` between a chat chunk and
`data: [DONE]`. -/
theorem StreamHandler_drops_empty_chat_chunk_witness :
    Example.depsKeepAlive.unmarshalChat (payload (dataPrefix ++ Example.emptyPayload)) =
        some Example.emptyChunk ∧
    StreamHandler Example.depsKeepAlive Example.plain
        { lines := [dataPrefix ++ Example.chatPayload] ++
            (dataPrefix ++ Example.emptyPayload) :: [dataPrefix ++ done],
          closeErr := none } RelayMode.ChatCompletions =
      StreamHandler Example.depsKeepAlive Example.plain
        { lines := [dataPrefix ++ Example.chatPayload] ++ [dataPrefix ++ done],
          closeErr := none } RelayMode.ChatCompletions :=
  ⟨by decide,
   (StreamHandler_drops_empty_chat_chunk Example.depsKeepAlive Example.plain
     [dataPrefix ++ Example.chatPayload] [dataPrefix ++ done]
     (dataPrefix ++ Example.emptyPayload) Example.emptyChunk none
     (by decide) (by decide) (by decide) rfl rfl).1⟩

/-- C11 as stated fails in Completions mode: the payload `{"choices":[]}` decodes to a
chunk with zero choices and no usage, and the line that carries it is sent to the
client. -/
theorem StreamHandler_completions_forwards_empty_chunk_counterexample :
    Example.depsKeepAlive.unmarshalCompletions (payload (dataPrefix ++ Example.emptyPayload)) =
        some { Choices := [] } ∧
    Example.depsKeepAlive.unmarshalChat (payload (dataPrefix ++ Example.emptyPayload)) =
        some { Id := [], Object := [], Created := 0, Model := [], Choices := [],
               Usage := none } ∧
    (StreamHandler Example.depsKeepAlive Example.plain
        { lines := [dataPrefix ++ Example.emptyPayload, dataPrefix ++ done], closeErr := none }
        RelayMode.Completions).out =
      [Render.StringData (dataPrefix ++ Example.emptyPayload),
       Render.StringData (dataPrefix ++ done)] ∧
    (StreamHandler Example.depsKeepAlive Example.plain
        { lines := [dataPrefix ++ done], closeErr := none }
        RelayMode.Completions).out = [Render.StringData (dataPrefix ++ done)] := by
  decide

/-- C12 (as amended): when closing the upstream body fails after the scan, the result
carries the close error (code `close_response_body_failed`, status 500) together with
an empty response text and a nil usage; the text and usage accumulated by the scan
are not returned, and the events sent to the client are those of a successful
close. -/
theorem StreamHandler_close_failure_discards_text_and_usage (d : Deps) (c : Context)
    (lines : List GoString) (relayMode : RelayMode) (err : GoError) :
    StreamHandler d c { lines := lines, closeErr := some err } relayMode =
      { out := (StreamHandler d c { lines := lines, closeErr := none } relayMode).out
        err := some (ErrorWrapper err code_close_response_body_failed 500)
        responseText := []
        usage := none } := by
  rfl

/-- C12 as stated fails: after a chunk with the text `Hi` and a chunk with the usage
`{3, 2, 5}`, a successful close returns that text and usage, a failed close returns
the empty text and no usage. -/
theorem StreamHandler_close_failure_counterexample :
    (StreamHandler Example.deps Example.plain
        { lines := [dataPrefix ++ Example.chatPayload, dataPrefix ++ Example.usagePayload],
          closeErr := none } RelayMode.ChatCompletions).responseText = "Hi".toList ∧
    (StreamHandler Example.deps Example.plain
        { lines := [dataPrefix ++ Example.chatPayload, dataPrefix ++ Example.usagePayload],
          closeErr := none } RelayMode.ChatCompletions).usage =
      some { PromptTokens := 3, CompletionTokens := 2, TotalTokens := 5 } ∧
    (StreamHandler Example.deps Example.plain
        { lines := [dataPrefix ++ Example.chatPayload, dataPrefix ++ Example.usagePayload],
          closeErr := some "connection reset".toList } RelayMode.ChatCompletions).responseText =
      [] ∧
    (StreamHandler Example.deps Example.plain
        { lines := [dataPrefix ++ Example.chatPayload, dataPrefix ++ Example.usagePayload],
          closeErr := some "connection reset".toList } RelayMode.ChatCompletions).usage =
      none := by
  decide


/-- A call of `Handler` that returns no error passed its four early returns and its
copy to the client completed. -/
theorem Handler_ok_inv (d : Deps) (c : Context) (w : Writer)
    (copyFail : Option (Nat × GoError)) (resp : Response) (promptTokens : Int)
    (modelName : GoString)
    (hok : (Handler d c w copyFail resp promptTokens modelName).err = none) :
    resp.readErr = none ∧ resp.closeErr = none ∧ copyFail = none ∧
      ∃ textResponse, d.unmarshalSlim resp.Body = Except.ok textResponse ∧
        textResponse.Error.Type_ = [] := by
  unfold Handler at hok
  cases hr : resp.readErr with
  | some e => simp [hr] at hok
  | none =>
    cases hc : resp.closeErr with
    | some e => simp [hr, hc] at hok
    | none =>
      cases hd : d.unmarshalSlim resp.Body with
      | error e => simp [hr, hc, hd] at hok
      | ok textResponse =>
        by_cases herr : textResponse.Error.Type_ = []
        · cases copyFail with
          | some p => simp [hr, hc, hd, herr] at hok
          | none => exact ⟨rfl, rfl, rfl, textResponse, rfl, herr⟩
        · simp [hr, hc, hd, herr] at hok

/-- The writer `Handler` leaves when it returns no error: the upstream headers set, the
upstream status code, the masked body. -/
theorem Handler_ok_writer (d : Deps) (c : Context) (w : Writer)
    (copyFail : Option (Nat × GoError)) (resp : Response) (promptTokens : Int)
    (modelName : GoString)
    (hok : (Handler d c w copyFail resp promptTokens modelName).err = none) :
    (Handler d c w copyFail resp promptTokens modelName).writer =
      ((resp.Header.foldl (fun acc e => Writer.Set d acc e.key e.first) w).WriteHeader
        resp.StatusCode).Write (maskedBody d c resp.Body) := by
  obtain ⟨hr, hc, hcopy, textResponse, hd, herr⟩ :=
    Handler_ok_inv d c w copyFail resp promptTokens modelName hok
  subst hcopy
  rw [Handler_decoded d c w none resp promptTokens modelName textResponse hr hc hd herr]

/-- Without redirection, or without an original model in the context, the body is not
rewritten. -/
theorem maskedBody_of_no_redirection (d : Deps) (c : Context) (body : GoString)
    (h : c.model_redirected ≠ some true ∨ c.original_model = none) :
    maskedBody d c body = body := by
  unfold maskedBody
  by_cases hred : c.model_redirected = some true
  · rcases h with h | h
    · exact absurd hred h
    · simp only [hred, h, if_true]
  · rw [if_neg hred]

/-- C13: when `Handler` returns without error and no masking rewrite applies
(`model_redirected` is not true, or `original_model` is absent), the body bytes
written to the client are exactly the upstream body bytes and the status code
written is the upstream status code. -/
theorem Handler_forwards_body_and_status_unchanged (d : Deps) (c : Context) (w : Writer)
    (copyFail : Option (Nat × GoError)) (resp : Response) (promptTokens : Int)
    (modelName : GoString)
    (hok : (Handler d c w copyFail resp promptTokens modelName).err = none)
    (hno : c.model_redirected ≠ some true ∨ c.original_model = none) :
    (Handler d c w copyFail resp promptTokens modelName).writer.Body = w.Body ++ resp.Body ∧
    (Handler d c w copyFail resp promptTokens modelName).writer.Status =
      some resp.StatusCode := by
  rw [Handler_ok_writer d c w copyFail resp promptTokens modelName hok,
    maskedBody_of_no_redirection d c resp.Body hno]
  exact ⟨Writer_after_headers_Body d resp.Header w resp.StatusCode resp.Body, rfl⟩

/-- Witness of C13: the body `bodyUsage` with status 200 and no redirection. -/
theorem Handler_forwards_body_and_status_unchanged_witness :
    (Handler Example.deps Example.plain Example.emptyWriter none
        (Example.response Example.bodyUsage) 10 "B".toList).writer.Body =
      Example.emptyWriter.Body ++ Example.bodyUsage ∧
    (Handler Example.deps Example.plain Example.emptyWriter none
        (Example.response Example.bodyUsage) 10 "B".toList).writer.Status = some 200 :=
  Handler_forwards_body_and_status_unchanged Example.deps Example.plain Example.emptyWriter
    none (Example.response Example.bodyUsage) 10 "B".toList (by decide) (Or.inl (by decide))

/-- Removing the entries of one key does not change what is found under another key. -/
theorem find_filter_other_key (l : List (GoString × List GoString)) (k2 kc : GoString)
    (h : k2 ≠ kc) :
    List.find? (fun e => decide (e.1 = k2)) (List.filter (fun e => decide (e.1 ≠ kc)) l) =
      List.find? (fun e => decide (e.1 = k2)) l := by
  induction l with
  | nil => rfl
  | cons e es ih =>
    by_cases he : e.1 = kc
    · have hk2 : ¬ e.1 = k2 := fun h2 => h (h2 ▸ he)
      rw [List.filter_cons_of_neg (by simp [he]), List.find?_cons_of_neg _ (by simp [hk2]), ih]
    · rw [List.filter_cons_of_pos (by simp [he])]
      by_cases hk2 : e.1 = k2
      · rw [List.find?_cons_of_pos _ (by simp [hk2]), List.find?_cons_of_pos _ (by simp [hk2])]
      · rw [List.find?_cons_of_neg _ (by simp [hk2]), List.find?_cons_of_neg _ (by simp [hk2]),
          ih]

/-- The values of a key after `Header().Set`: the value set for the canonical key of the
call, the former values for every other key. -/
theorem Writer_Values_Set (d : Deps) (w : Writer) (k v k2 : GoString) :
    (Writer.Set d w k v).Values k2 =
      if k2 = d.CanonicalKey k then [v] else w.Values k2 := by
  unfold Writer.Set Writer.Values
  simp only [List.find?_append]
  by_cases h : k2 = d.CanonicalKey k
  · subst h
    rw [if_pos rfl]
    have hnone : List.find? (fun e => decide (e.1 = d.CanonicalKey k))
        (List.filter (fun e => decide (e.1 ≠ d.CanonicalKey k)) w.Header) = none := by
      rw [List.find?_eq_none]
      intro e he
      have := (List.mem_filter.mp he).2
      simpa using this
    rw [hnone]
    simp
  · rw [if_neg h, find_filter_other_key _ _ _ h]
    have hlast : List.find? (fun e => decide (e.1 = k2)) [(d.CanonicalKey k, [v])] = none := by
      rw [List.find?_cons_of_neg _ (by simp [Ne.symm h])]
      rfl
    rw [hlast]
    cases List.find? (fun e => decide (e.1 = k2)) w.Header <;> rfl

/-- The header values after the loop over the upstream headers: a canonical key that
some upstream header has holds exactly one value, the first value of an upstream
header with that canonical key. -/
theorem headers_after_loop (d : Deps) (hs : List HeaderEntry) (w : Writer) :
    ∀ e ∈ hs, ∃ e2 ∈ hs, d.CanonicalKey e2.key = d.CanonicalKey e.key ∧
      (hs.foldl (fun acc x => Writer.Set d acc x.key x.first) w).Values
        (d.CanonicalKey e.key) = [e2.first] := by
  induction hs using List.reverseRecOn with
  | nil => intro e he; cases he
  | append_singleton hs x ih =>
    intro e he
    rw [List.foldl_append, List.foldl_cons, List.foldl_nil, Writer_Values_Set]
    by_cases hk : d.CanonicalKey e.key = d.CanonicalKey x.key
    · rw [if_pos hk]
      exact ⟨x, by simp, hk.symm, rfl⟩
    · rw [if_neg hk]
      have hmem : e ∈ hs := by
        rcases List.mem_append.mp he with h | h
        · exact h
        · rw [List.mem_singleton] at h
          subst h
          exact absurd rfl hk
      obtain ⟨e2, he2, hkey, hval⟩ := ih e hmem
      exact ⟨e2, List.mem_append_left _ he2, hkey, hval⟩

/-- Writing the status code and the body leaves the header values as they are. -/
theorem Writer_Values_after_body (w : Writer) (code : Int) (p k : GoString) :
    ((w.WriteHeader code).Write p).Values k = w.Values k := rfl

/-- C14 (as amended): when `Handler` returns without error, every header key of the
upstream response is copied to the client with one value only: the client's values
for the canonical key are exactly the first value that an upstream header with that
canonical key has (the header itself when canonical keys are distinct); the further
values of a multi-valued upstream header are not copied. -/
theorem Handler_copies_first_header_value (d : Deps) (c : Context) (w : Writer)
    (copyFail : Option (Nat × GoError)) (resp : Response) (promptTokens : Int)
    (modelName : GoString)
    (hok : (Handler d c w copyFail resp promptTokens modelName).err = none) :
    (∀ e ∈ resp.Header, ∃ e2 ∈ resp.Header,
      d.CanonicalKey e2.key = d.CanonicalKey e.key ∧
      (Handler d c w copyFail resp promptTokens modelName).writer.Values
        (d.CanonicalKey e.key) = [e2.first]) ∧
    ((resp.Header.map (fun e => d.CanonicalKey e.key)).Nodup →
      ∀ e ∈ resp.Header,
        (Handler d c w copyFail resp promptTokens modelName).writer.Values
          (d.CanonicalKey e.key) = [e.first]) := by
  rw [Handler_ok_writer d c w copyFail resp promptTokens modelName hok]
  simp only [Writer_Values_after_body]
  refine ⟨headers_after_loop d resp.Header w, ?_⟩
  intro hnd e he
  obtain ⟨e2, he2, hkey, hval⟩ := headers_after_loop d resp.Header w e he
  have heq : e2 = e := List.inj_on_of_nodup_map hnd he2 he hkey
  rw [hval, heq]

/-- Witness of C14: the header `Content-Type: application/json` reaches the client. -/
theorem Handler_copies_first_header_value_witness :
    (Handler Example.deps Example.plain Example.emptyWriter none
        (Example.response Example.bodyUsage) 10 "B".toList).writer.Values
        "Content-Type".toList = ["application/json".toList] :=
  (Handler_copies_first_header_value Example.deps Example.plain Example.emptyWriter none
    (Example.response Example.bodyUsage) 10 "B".toList (by decide)).2 (by decide)
    { key := "Content-Type".toList, first := "application/json".toList, more := [] }
    (by decide)

/-- C14 as stated fails: the upstream header `Set-Cookie` has the values `a=1` and `b=2`,
`Handler` returns without error, and the client's `Set-Cookie` header holds `a=1`
only. -/
theorem Handler_drops_second_header_value_counterexample :
    (Handler Example.deps Example.plain Example.emptyWriter none Example.responseTwoCookies
        10 "B".toList).err = none ∧
    Example.responseTwoCookies.Header =
      [{ key := "Set-Cookie".toList, first := "a=1".toList, more := ["b=2".toList] }] ∧
    (Handler Example.deps Example.plain Example.emptyWriter none Example.responseTwoCookies
        10 "B".toList).writer.Values "Set-Cookie".toList = ["a=1".toList] ∧
    "b=2".toList ∉ (Handler Example.deps Example.plain Example.emptyWriter none
        Example.responseTwoCookies 10 "B".toList).writer.Values "Set-Cookie".toList := by
  decide


/-- C16 (as amended): when `Handler` recomputes the usage, the model name passed to the
token counter for each choice is the argument `modelName` of `Handler`; the model
field of the upstream response is not read for it: whatever the body decodes to as a
full response, the completion tokens are the counts under `modelName`. -/
theorem Handler_counts_tokens_under_modelName_argument (d : Deps) (c : Context) (w : Writer)
    (resp : Response) (promptTokens : Int) (modelName : GoString)
    (textResponse : SlimTextResponse) (decodeFull : GoString → Option TextResponse)
    (hread : resp.readErr = none) (hclose : resp.closeErr = none)
    (hdec : d.unmarshalSlim resp.Body = Except.ok textResponse)
    (herr : textResponse.Error.Type_ = [])
    (hzero : textResponse.Usage.TotalTokens = 0 ∨
      (textResponse.Usage.PromptTokens = 0 ∧ textResponse.Usage.CompletionTokens = 0)) :
    (Handler { d with unmarshalText := decodeFull } c w none resp promptTokens modelName).usage =
      some { PromptTokens := promptTokens
             CompletionTokens := goSum (textResponse.Choices.map (fun choice =>
               d.CountTokenText (d.StringContent choice.Message) modelName))
             TotalTokens := goAdd promptTokens (goSum (textResponse.Choices.map (fun choice =>
               d.CountTokenText (d.StringContent choice.Message) modelName))) } := by
  have hdec2 : ({ d with unmarshalText := decodeFull } : Deps).unmarshalSlim resp.Body =
      Except.ok textResponse := hdec
  rw [Handler_decoded { d with unmarshalText := decodeFull } c w none resp promptTokens
    modelName textResponse hread hclose hdec2 herr]
  simp only [finalUsage_recomputed { d with unmarshalText := decodeFull } textResponse
    promptTokens modelName hzero]
  rfl

/-- Witness of C16: the body `bodyNoUsage` declares model `B`; under the argument `A` the
counter gives two tokens per byte, and the usage returned is `{10, 24, 34}`. -/
theorem Handler_counts_tokens_under_modelName_argument_witness :
    (Handler { Example.depsByModel with unmarshalText := Example.depsByModel.unmarshalText }
        Example.plain Example.emptyWriter none (Example.response Example.bodyNoUsage) 10
        "A".toList).usage =
      some { PromptTokens := 10
             CompletionTokens := goSum (Example.twoChoices.map (fun choice =>
               Example.depsByModel.CountTokenText
                 (Example.depsByModel.StringContent choice.Message) "A".toList))
             TotalTokens := goAdd 10 (goSum (Example.twoChoices.map (fun choice =>
               Example.depsByModel.CountTokenText
                 (Example.depsByModel.StringContent choice.Message) "A".toList))) } :=
  Handler_counts_tokens_under_modelName_argument Example.depsByModel Example.plain
    Example.emptyWriter (Example.response Example.bodyNoUsage) 10 "A".toList
    { Choices := Example.twoChoices, Usage := Example.zeroUsage, Error := Example.noError }
    Example.depsByModel.unmarshalText rfl rfl rfl rfl (Or.inl rfl)

/-- C16 as stated fails: the upstream response declares model `B`, under which its two
choices count 5 and 7 tokens; `Handler` is called with the model name `A`, under
which they count 10 and 14, and the usage returned is `{10, 24, 34}`, not
`{10, 12, 22}`. -/
theorem Handler_ignores_declared_model_counterexample :
    (Example.depsByModel.unmarshalText (Example.response Example.bodyNoUsage).Body).map
        (fun full => full.Model) = some "B".toList ∧
    choiceCounts Example.depsByModel
        { Choices := Example.twoChoices, Usage := Example.zeroUsage, Error := Example.noError }
        "B".toList = [5, 7] ∧
    (Handler Example.depsByModel Example.plain Example.emptyWriter none
        (Example.response Example.bodyNoUsage) 10 "A".toList).usage =
      some { PromptTokens := 10, CompletionTokens := 24, TotalTokens := 34 } := by
  decide

/-- The usage after one iteration: the usage of the line when it has one, the former
usage otherwise. -/
theorem processLine_usage (d : Deps) (c : Context) (m : RelayMode) (st : LoopState)
    (data : GoString) :
    (processLine d c m st data).usage =
      ((processLine d c m initState data).usage).or st.usage := by
  unfold processLine
  repeat' split
  all_goals simp_all [initState]

/-- The usage after the loop: the usage of the last line that has one, the former usage
when no line has one. -/
theorem scanLoop_usage (d : Deps) (c : Context) (m : RelayMode) (lines : List GoString)
    (st : LoopState) :
    (scanLoop d c m st lines).usage =
      ((lines.filterMap (fun l => (processLine d c m initState l).usage)).getLast?).or
        st.usage := by
  induction lines generalizing st with
  | nil => simp [scanLoop]
  | cons l ls ih =>
    have h := ih (processLine d c m st l)
    simp only [scanLoop, List.foldl_cons] at h ⊢
    rw [h, processLine_usage]
    cases hl : (processLine d c m initState l).usage with
    | none => simp [List.filterMap_cons, hl]
    | some u =>
      simp only [List.filterMap_cons, hl]
      cases hrest : (ls.filterMap (fun l => (processLine d c m initState l).usage)).getLast? with
      | none =>
        have hnil : ls.filterMap (fun l => (processLine d c m initState l).usage) = [] :=
          List.getLast?_eq_none_iff.mp hrest
        simp [hnil, Option.or]
      | some v =>
        simp [List.getLast?_cons, hrest, Option.or]

/-- The usage one line contributes in ChatCompletions mode. -/
theorem lineUsage_chat (d : Deps) (c : Context) (data : GoString) :
    (processLine d c RelayMode.ChatCompletions initState data).usage =
      if (accepted data && !terminalLine data) = true then
        (d.unmarshalChat (payload data)).bind (fun r => r.Usage)
      else none := by
  by_cases ha : accepted data = true
  · by_cases ht : terminalLine data = true
    · rw [processLine_terminal d c _ _ _ ht]
      simp [initState, ha, ht]
    · have ht2 : terminalLine data = false := by simpa using ht
      rw [processLine_forward d c _ _ _ ha ht2]
      simp only [ha, ht2, Bool.not_false, Bool.and_self, if_true]
      cases hu : d.unmarshalChat (payload data) with
      | none => simp [initState]
      | some r =>
        simp only [Option.some_bind]
        split
        · rename_i hz
          simp [initState, hz.2]
        · cases r.Usage <;> simp [initState]
  · have ha2 : accepted data = false := by simpa using ha
    rw [processLine_not_accepted d c _ _ _ ha2]
    simp [initState, ha2]

/-- The usages of the lines in ChatCompletions mode are the usages of the decoded
chunks. -/
theorem lineUsages_chat (d : Deps) (c : Context) (lines : List GoString) :
    lines.filterMap (fun l => (processLine d c RelayMode.ChatCompletions initState l).usage) =
      (decodedChunks d lines).filterMap (fun r => r.Usage) := by
  unfold decodedChunks
  induction lines with
  | nil => rfl
  | cons l ls ih =>
    rw [List.filterMap_cons, lineUsage_chat, ih]
    by_cases h : (accepted l && !terminalLine l) = true
    · cases hu : d.unmarshalChat (payload l) with
      | none => simp [List.filter_cons, h, List.filterMap_cons, hu]
      | some r =>
        cases hr : r.Usage <;> simp [List.filter_cons, h, List.filterMap_cons, hu, hr]
    · simp [List.filter_cons, h]

/-- C17: in ChatCompletions mode, on successful close, the returned usage is the usage of
the last chunk of the stream that carries a usage (a later usage replaces an earlier
one, they are never added), and it is nil when no decoded chunk carries a usage. -/
theorem StreamHandler_returns_last_usage (d : Deps) (c : Context) (lines : List GoString) :
    (StreamHandler d c { lines := lines, closeErr := none } RelayMode.ChatCompletions).usage =
        expectedUsage d lines ∧
    ((∀ r ∈ decodedChunks d lines, r.Usage = none) →
      (StreamHandler d c { lines := lines, closeErr := none }
        RelayMode.ChatCompletions).usage = none) := by
  have h : (StreamHandler d c { lines := lines, closeErr := none }
      RelayMode.ChatCompletions).usage =
      (scanLoop d c RelayMode.ChatCompletions initState lines).usage := rfl
  have hmain : (StreamHandler d c { lines := lines, closeErr := none }
      RelayMode.ChatCompletions).usage = expectedUsage d lines := by
    rw [h, scanLoop_usage, lineUsages_chat]
    simp [initState, expectedUsage]
  refine ⟨hmain, ?_⟩
  intro hnone
  rw [hmain]
  unfold expectedUsage
  have hnil : (decodedChunks d lines).filterMap (fun r => r.Usage) = [] := by
    rw [List.filterMap_eq_nil_iff]
    exact hnone
  rw [hnil]
  rfl

/-- Witness of C17: a stream without a usage returns none; a stream in which the usage
`{3, 2, 5}` arrives twice returns `{3, 2, 5}`, not the sum. -/
theorem StreamHandler_returns_last_usage_witness :
    (StreamHandler Example.deps Example.plain
        { lines := [dataPrefix ++ Example.chatPayload, dataPrefix ++ done], closeErr := none }
        RelayMode.ChatCompletions).usage = none ∧
    (StreamHandler Example.deps Example.plain
        { lines := [dataPrefix ++ Example.usagePayload, dataPrefix ++ Example.usagePayload],
          closeErr := none }
        RelayMode.ChatCompletions).usage =
      some { PromptTokens := 3, CompletionTokens := 2, TotalTokens := 5 } :=
  ⟨(StreamHandler_returns_last_usage Example.deps Example.plain
      [dataPrefix ++ Example.chatPayload, dataPrefix ++ done]).2 (by decide),
   (StreamHandler_returns_last_usage Example.deps Example.plain
      [dataPrefix ++ Example.usagePayload, dataPrefix ++ Example.usagePayload]).1.trans
      (by decide)⟩


/-- Two loop states with the same four fields are equal. -/
theorem LoopState_eq (a b : LoopState) (h1 : a.out = b.out)
    (h2 : a.responseText = b.responseText) (h3 : a.usage = b.usage)
    (h4 : a.doneRendered = b.doneRendered) : a = b := by
  cases a
  cases b
  simp only at h1 h2 h3 h4
  subst h1 h2 h3 h4
  rfl

/-- An event sent before the loop stays in front of the events of the loop and changes
nothing else. -/
theorem scanLoop_with_event (d : Deps) (c : Context) (m : RelayMode) (st : LoopState)
    (e : Render) (lines : List GoString) :
    scanLoop d c m { st with out := st.out ++ [e] } lines =
      { scanLoop d c m st lines with
        out := st.out ++ e :: (lines.map (fun l => (processLine d c m initState l).out)).flatten } := by
  apply LoopState_eq
  · rw [scanLoop_out]
    simp
  · rw [scanLoop_responseText, scanLoop_responseText]
  · rw [scanLoop_usage, scanLoop_usage]
  · rw [scanLoop_doneRendered, scanLoop_doneRendered]

/-- C18: in ChatCompletions mode an accepted non-terminal line whose payload fails to
decode is forwarded to the client unmodified, whatever the redirection context,
leaves the accumulated text, the usage and `doneRendered` as they are, and does not
abort the stream: the lines after it are processed, and `StreamHandler` returns the
text, the usage and the error of the input without that line, the events sent being
those of the input without it with the line inserted at its place. -/
theorem StreamHandler_forwards_undecodable_line (d : Deps) (c : Context)
    (before after : List GoString) (data : GoString) (closeErr : Option GoError)
    (ha : accepted data = true) (ht : terminalLine data = false)
    (hdec : d.unmarshalChat (payload data) = none) :
    (∀ st, processLine d c RelayMode.ChatCompletions st data =
      { st with out := st.out ++ [Render.StringData data] }) ∧
    (∃ evs,
      (StreamHandler d c { lines := before ++ after, closeErr := closeErr }
          RelayMode.ChatCompletions).out =
        (scanLoop d c RelayMode.ChatCompletions initState before).out ++ evs ∧
      (StreamHandler d c { lines := before ++ data :: after, closeErr := closeErr }
          RelayMode.ChatCompletions).out =
        (scanLoop d c RelayMode.ChatCompletions initState before).out ++
          Render.StringData data :: evs) ∧
    (StreamHandler d c { lines := before ++ data :: after, closeErr := closeErr }
        RelayMode.ChatCompletions).responseText =
      (StreamHandler d c { lines := before ++ after, closeErr := closeErr }
        RelayMode.ChatCompletions).responseText ∧
    (StreamHandler d c { lines := before ++ data :: after, closeErr := closeErr }
        RelayMode.ChatCompletions).usage =
      (StreamHandler d c { lines := before ++ after, closeErr := closeErr }
        RelayMode.ChatCompletions).usage ∧
    (StreamHandler d c { lines := before ++ data :: after, closeErr := closeErr }
        RelayMode.ChatCompletions).err =
      (StreamHandler d c { lines := before ++ after, closeErr := closeErr }
        RelayMode.ChatCompletions).err := by
  have hline : ∀ st, processLine d c RelayMode.ChatCompletions st data =
      { st with out := st.out ++ [Render.StringData data] } := by
    intro st
    rw [processLine_forward d c _ _ _ ha ht]
    simp only [hdec]
  have hwith : scanLoop d c RelayMode.ChatCompletions initState (before ++ data :: after) =
      { scanLoop d c RelayMode.ChatCompletions
          (scanLoop d c RelayMode.ChatCompletions initState before) after with
        out := (scanLoop d c RelayMode.ChatCompletions initState before).out ++
          Render.StringData data ::
            (after.map (fun l =>
              (processLine d c RelayMode.ChatCompletions initState l).out)).flatten } := by
    rw [scanLoop_middle, hline, scanLoop_with_event]
  have hwithout : scanLoop d c RelayMode.ChatCompletions initState (before ++ after) =
      scanLoop d c RelayMode.ChatCompletions
        (scanLoop d c RelayMode.ChatCompletions initState before) after := by
    simp only [scanLoop, List.foldl_append]
  have hout := scanLoop_out d c RelayMode.ChatCompletions after
    (scanLoop d c RelayMode.ChatCompletions initState before)
  refine ⟨hline, ?_, ?_, ?_, ?_⟩
  · refine ⟨(after.map (fun l =>
        (processLine d c RelayMode.ChatCompletions initState l).out)).flatten ++
      (if (scanLoop d c RelayMode.ChatCompletions
          (scanLoop d c RelayMode.ChatCompletions initState before) after).doneRendered = true
        then [] else [Render.Done]), ?_, ?_⟩
    · unfold StreamHandler
      simp only [hwithout]
      cases closeErr <;> simp only [hout] <;>
        cases (scanLoop d c RelayMode.ChatCompletions
          (scanLoop d c RelayMode.ChatCompletions initState before) after).doneRendered <;>
        simp
    · unfold StreamHandler
      simp only [hwith]
      cases closeErr <;>
        cases (scanLoop d c RelayMode.ChatCompletions
          (scanLoop d c RelayMode.ChatCompletions initState before) after).doneRendered <;>
        simp
  · unfold StreamHandler
    simp only [hwith, hwithout]
    cases closeErr <;> rfl
  · unfold StreamHandler
    simp only [hwith, hwithout]
    cases closeErr <;> rfl
  · unfold StreamHandler
    simp only [hwith, hwithout]
    cases closeErr <;> rfl

/-- Witness of C18: the line `data: {oops` between a chat chunk and `data: [DONE]`, under
redirection, reaches the client as it is. -/
theorem StreamHandler_forwards_undecodable_line_witness :
    (StreamHandler Example.deps Example.redirected
        { lines := [dataPrefix ++ Example.chatPayload] ++
            "data: \x7boops".toList :: [dataPrefix ++ done], closeErr := none }
        RelayMode.ChatCompletions).responseText =
      (StreamHandler Example.deps Example.redirected
        { lines := [dataPrefix ++ Example.chatPayload] ++ [dataPrefix ++ done],
          closeErr := none } RelayMode.ChatCompletions).responseText ∧
    Render.StringData "data: \x7boops".toList ∈
      (StreamHandler Example.deps Example.redirected
        { lines := [dataPrefix ++ Example.chatPayload] ++
            "data: \x7boops".toList :: [dataPrefix ++ done], closeErr := none }
        RelayMode.ChatCompletions).out :=
  ⟨(StreamHandler_forwards_undecodable_line Example.deps Example.redirected
      [dataPrefix ++ Example.chatPayload] [dataPrefix ++ done] "data: \x7boops".toList none
      (by decide) (by decide) (by decide)).2.2.1,
   by decide⟩


/-- C19 (as amended): a line shorter than 6 bytes is discarded; a line whose first 6 bytes
are neither `data: ` nor `[DONE]` is discarded; an accepted line is treated as
terminal (forwarded verbatim, termination recorded) exactly when its payload begins
with the sentinel `[DONE]`, and in every case the scan continues with the next
line. -/
theorem processLine_classification (d : Deps) (c : Context) (relayMode : RelayMode)
    (st : LoopState) (data : GoString) :
    (data.length < dataPrefixLength → processLine d c relayMode st data = st) ∧
    ((data.take dataPrefixLength ≠ dataPrefix ∧ data.take dataPrefixLength ≠ done) →
      processLine d c relayMode st data = st) ∧
    (accepted data = true →
      (HasPrefix (payload data) done = true →
        processLine d c relayMode st data =
          { st with out := st.out ++ [Render.StringData data], doneRendered := true }) ∧
      (processLine d c relayMode st data).doneRendered =
        (st.doneRendered || HasPrefix (payload data) done)) ∧
    (∀ rest, scanLoop d c relayMode st (data :: rest) =
      scanLoop d c relayMode (processLine d c relayMode st data) rest) := by
  refine ⟨?_, ?_, ?_, ?_⟩
  · intro hlen
    apply processLine_not_accepted
    unfold accepted
    simp [Nat.not_le.mpr hlen]
  · intro hne
    apply processLine_not_accepted
    unfold accepted
    simp [hne.1, hne.2]
  · intro ha
    constructor
    · intro hp
      exact processLine_terminal d c relayMode st data (by simp [terminalLine, ha, hp])
    · rw [processLine_doneRendered]
      simp [terminalLine, ha]
  · intro rest
    rfl

/-- Witness of C19: the four-byte line `data` is discarded, the line `event: ping` is
discarded, and the line `data: [DONE]` is treated as terminal. -/
theorem processLine_classification_witness :
    processLine Example.deps Example.plain RelayMode.ChatCompletions initState "data".toList =
      initState ∧
    processLine Example.deps Example.plain RelayMode.ChatCompletions initState
      "event: ping".toList = initState ∧
    processLine Example.deps Example.plain RelayMode.ChatCompletions initState
      "data: [DONE]".toList =
      { initState with out := initState.out ++ [Render.StringData "data: [DONE]".toList],
                       doneRendered := true } :=
  ⟨(processLine_classification Example.deps Example.plain RelayMode.ChatCompletions initState
      "data".toList).1 (by decide),
   (processLine_classification Example.deps Example.plain RelayMode.ChatCompletions initState
      "event: ping".toList).2.1 (by decide),
   ((processLine_classification Example.deps Example.plain RelayMode.ChatCompletions initState
      "data: [DONE]".toList).2.2.1 (by decide)).1 (by decide)⟩

/-- C19 as stated fails: the accepted line `data: [DONE] trailing` has the payload
`[DONE] trailing`, which is not the sentinel, and is treated as terminal all the
same: it is forwarded verbatim and termination is recorded. -/
theorem processLine_terminal_by_prefix_counterexample :
    accepted "data: [DONE] trailing".toList = true ∧
    payload "data: [DONE] trailing".toList ≠ done ∧
    processLine Example.deps Example.plain RelayMode.ChatCompletions initState
      "data: [DONE] trailing".toList =
      { out := [Render.StringData "data: [DONE] trailing".toList], responseText := [],
        usage := none, doneRendered := true } := by
  decide

/-- The bytes still to be passed over are passed over. -/
theorem replaceFrom_skip (old new : GoString) (k : Nat) (s : GoString) :
    replaceFrom old new k s = replaceFrom old new 0 (s.drop k) := by
  induction s generalizing k with
  | nil => cases k <;> simp [replaceFrom]
  | cons b rest ih =>
    cases k with
    | zero => rfl
    | succ k => simp only [replaceFrom, List.drop_succ_cons, ih k]

/-- Where `old` does not occur, nothing is replaced. -/
theorem replaceFrom_of_not_Contains (old new s : GoString) (h : Contains s old = false) :
    replaceFrom old new 0 s = s := by
  induction s with
  | nil => rfl
  | cons b rest ih =>
    unfold Contains at h
    simp only [Bool.or_eq_false_iff] at h
    simp only [replaceFrom, h.1, Bool.false_eq_true, if_false, ih h.2]

/-- Where `old` does not start, one byte is kept and the replacement goes on. -/
theorem replaceFrom_cons_of_not_isPrefixOf (old new : GoString) (b : Char) (rest : GoString)
    (h : old.isPrefixOf (b :: rest) = false) :
    replaceFrom old new 0 (b :: rest) = b :: replaceFrom old new 0 rest := by
  simp only [replaceFrom, h, Bool.false_eq_true, if_false]

/-- A list that starts a longer list and fits in its first part starts that part. -/
theorem isPrefixOf_of_append (old x y : GoString) (h : old.isPrefixOf (x ++ y) = true)
    (hlen : old.length ≤ x.length) : old.isPrefixOf x = true := by
  rw [List.isPrefixOf_iff_prefix] at h ⊢
  exact List.prefix_of_prefix_length_le h (List.prefix_append x y) hlen

/-- The first occurrence of a non-empty `old` is replaced, and the replacement goes on
behind it. -/
theorem replaceFrom_first_occurrence (old new pre post : GoString) (hne : old ≠ [])
    (h : Contains (pre ++ old.dropLast) old = false) :
    replaceFrom old new 0 (pre ++ old ++ post) = pre ++ new ++ replaceFrom old new 0 post := by
  induction pre with
  | nil =>
    obtain ⟨o, os, rfl⟩ := List.exists_cons_of_ne_nil hne
    have hp : (o :: os).isPrefixOf (o :: os ++ post) = true := by
      rw [List.isPrefixOf_iff_prefix]
      exact List.prefix_append _ _
    simp only [List.nil_append, List.cons_append] at hp ⊢
    simp only [replaceFrom, hp, if_true, List.length_cons, Nat.add_sub_cancel]
    rw [replaceFrom_skip]
    simp
  | cons p ps ih =>
    have h2 := h
    simp only [List.cons_append] at h2
    unfold Contains at h2
    simp only [Bool.or_eq_false_iff] at h2
    have hnp : old.isPrefixOf (p :: (ps ++ old ++ post)) = false := by
      cases hq : old.isPrefixOf (p :: (ps ++ old ++ post)) with
      | false => rfl
      | true =>
        have hlen : old.length ≤ (p :: (ps ++ old.dropLast)).length := by
          have := List.length_dropLast old
          have hpos : 0 < old.length := List.length_pos.mpr hne
          simp only [List.length_cons, List.length_append, List.length_dropLast]
          omega
        have hsplit : p :: (ps ++ old ++ post) =
            (p :: (ps ++ old.dropLast)) ++ (old.drop (old.length - 1) ++ post) := by
          have hold : old.dropLast ++ old.drop (old.length - 1) = old := by
            rw [List.dropLast_eq_take]
            exact List.take_append_drop _ _
          calc p :: (ps ++ old ++ post)
              = p :: (ps ++ (old.dropLast ++ old.drop (old.length - 1)) ++ post) := by rw [hold]
            _ = (p :: (ps ++ old.dropLast)) ++ (old.drop (old.length - 1) ++ post) := by
                simp [List.append_assoc]
        rw [hsplit] at hq
        have := isPrefixOf_of_append old _ _ hq hlen
        rw [h2.1] at this
        exact absurd this (by simp)
    have hstep := replaceFrom_cons_of_not_isPrefixOf old new p (ps ++ old ++ post) hnp
    simp only [List.cons_append]
    rw [hstep, ih h2.2]


/-- The text `"model":"<name>"` is not empty. -/
theorem modelField_ne_nil (name : GoString) : modelField name ≠ [] := by
  simp [modelField]

/-- For a non-empty `old`, `ReplaceAll` is the replacement from the first byte on. -/
theorem ReplaceAll_of_ne_nil (s old new : GoString) (hne : old ≠ []) :
    ReplaceAll s old new = replaceFrom old new 0 s := by
  obtain ⟨o, os, rfl⟩ := List.exists_cons_of_ne_nil hne
  rfl

/-- The body forwarded by the fallback of `Handler` (lines 157-165 of `main.go`). -/
theorem maskedBody_fallback (d : Deps) (c : Context) (body a b : GoString)
    (hred : c.model_redirected = some true) (horig : c.original_model = some a)
    (htarget : c.target_model = some b)
    (hnofull : ∀ full, d.unmarshalText body = some full → full.Model = []) :
    maskedBody d c body = ReplaceAll body (modelField b) (modelField a) := by
  unfold maskedBody
  simp only [hred, horig, htarget, if_true]
  cases hfull : d.unmarshalText body with
  | none => rfl
  | some full =>
    have hm := hnofull full hfull
    simp only [hm, ne_eq, not_true_eq_false, if_false]

/-- C20: when redirection is active with original model `a` and target model `b` and the
body does not decode as a full `TextResponse` with a non-empty model, the body
`Handler` writes to the client is the upstream body with the occurrences of the text
`"model":"b"` replaced by `"model":"a"`, first occurrence first (all of it when
the copy completes, its first `n` bytes when the copy stops after `n` bytes); a body
that does not contain that exact text is forwarded unchanged. -/
theorem Handler_fallback_replaces_model_text (d : Deps) (c : Context) (w : Writer)
    (copyFail : Option (Nat × GoError)) (resp : Response) (promptTokens : Int)
    (modelName a b : GoString) (textResponse : SlimTextResponse)
    (hread : resp.readErr = none) (hclose : resp.closeErr = none)
    (hdec : d.unmarshalSlim resp.Body = Except.ok textResponse)
    (herr : textResponse.Error.Type_ = [])
    (hred : c.model_redirected = some true) (horig : c.original_model = some a)
    (htarget : c.target_model = some b)
    (hnofull : ∀ full, d.unmarshalText resp.Body = some full → full.Model = []) :
    maskedBody d c resp.Body = ReplaceAll resp.Body (modelField b) (modelField a) ∧
    (copyFail = none →
      (Handler d c w copyFail resp promptTokens modelName).writer.Body =
        w.Body ++ ReplaceAll resp.Body (modelField b) (modelField a)) ∧
    (∀ n err, copyFail = some (n, err) →
      (Handler d c w copyFail resp promptTokens modelName).writer.Body =
        w.Body ++ (ReplaceAll resp.Body (modelField b) (modelField a)).take n) ∧
    (Contains resp.Body (modelField b) = false →
      ReplaceAll resp.Body (modelField b) (modelField a) = resp.Body) ∧
    (∀ pre post, resp.Body = pre ++ modelField b ++ post →
      Contains (pre ++ (modelField b).dropLast) (modelField b) = false →
      ReplaceAll resp.Body (modelField b) (modelField a) =
        pre ++ modelField a ++ ReplaceAll post (modelField b) (modelField a)) := by
  have hbody := maskedBody_fallback d c resp.Body a b hred horig htarget hnofull
  rw [Handler_decoded d c w copyFail resp promptTokens modelName textResponse hread hclose
    hdec herr]
  refine ⟨hbody, ?_, ?_, ?_, ?_⟩
  · intro hc
    subst hc
    simp only [Writer_after_headers_Body, hbody]
  · intro n err hc
    subst hc
    simp only [Writer_after_headers_Body, hbody]
  · intro hno
    rw [ReplaceAll_of_ne_nil _ _ _ (modelField_ne_nil b)]
    exact replaceFrom_of_not_Contains _ _ _ hno
  · intro pre post hsplit hfirst
    rw [ReplaceAll_of_ne_nil _ _ _ (modelField_ne_nil b),
      ReplaceAll_of_ne_nil _ _ _ (modelField_ne_nil b), hsplit]
    exact replaceFrom_first_occurrence _ _ pre post (modelField_ne_nil b) hfirst

/-- Witness of C20: under redirection from `A` to `B` the body
`{"model":"B","created":"now"}`, which does not decode as a full response, reaches
the client as `{"model":"A","created":"now"}`; the body
`{"model": "B","created":"now"}`, with a blank after the colon, reaches it
unchanged. -/
theorem Handler_fallback_replaces_model_text_witness :
    (Handler Example.depsFallback Example.redirected Example.emptyWriter none
        (Example.response Example.bodyBadCreated) 10 "B".toList).writer.Body =
      "\x7b\"model\":\"A\",\"created\":\"now\"\x7d".toList ∧
    (Handler Example.depsFallback Example.redirected Example.emptyWriter none
        (Example.response Example.bodySpaced) 10 "B".toList).writer.Body =
      Example.bodySpaced :=
  ⟨((Handler_fallback_replaces_model_text Example.depsFallback Example.redirected
      Example.emptyWriter none (Example.response Example.bodyBadCreated) 10 "B".toList
      "A".toList "B".toList
      { Choices := [], Usage := Example.upstreamUsage, Error := Example.noError }
      rfl rfl rfl rfl rfl rfl rfl
      (fun full h => Option.noConfusion
        ((show Example.depsFallback.unmarshalText
            (Example.response Example.bodyBadCreated).Body = none from by decide).symm.trans
          h))).2.1 rfl).trans (by decide),
   ((Handler_fallback_replaces_model_text Example.depsFallback Example.redirected
      Example.emptyWriter none (Example.response Example.bodySpaced) 10 "B".toList
      "A".toList "B".toList
      { Choices := [], Usage := Example.upstreamUsage, Error := Example.noError }
      rfl rfl rfl rfl rfl rfl rfl
      (fun full h => Option.noConfusion
        ((show Example.depsFallback.unmarshalText
            (Example.response Example.bodySpaced).Body = none from by decide).symm.trans
          h))).2.1 rfl).trans (by decide)⟩

end openai

namespace common

/-- After `setHighLoadMode` the flag is the status given. -/
theorem setHighLoadMode_flag (newStatus : Bool) (s : GlobalState) :
    (setHighLoadMode newStatus s).isHighLoadMode = newStatus := by
  unfold setHighLoadMode
  split
  · rfl
  · rename_i h
    simpa using h

/-- After a run of polls the flag is the value of the predicate at the last poll, the
former flag when there was no poll. -/
theorem monitorLoop_ticks_flag (polls : List Bool) (s : GlobalState) :
    IsHighLoadMode (monitorLoop s (polls.map Event.tick)) =
      polls.getLast?.getD (IsHighLoadMode s) := by
  induction polls generalizing s with
  | nil => rfl
  | cons q qs ih =>
    simp only [List.map_cons, monitorLoop]
    rw [ih (pollStep q s)]
    simp only [IsHighLoadMode, pollStep, setHighLoadMode_flag, List.getLast?_cons]
    rfl

/-- C15: `StartHighLoadMonitor` polls once before it returns: whatever the flag was,
right after the call `IsHighLoadMode()` is the value of `checkHighLoadFlag` at that
poll; every later poll sets the flag to the value of the predicate at that poll, so
after any run of polls the flag is the value at the last one; a flag that does not
change is not logged. -/
theorem StartHighLoadMonitor_polls_before_returning (s : GlobalState) (flagExists : Bool)
    (polls : List Bool) :
    IsHighLoadMode (StartHighLoadMonitor flagExists s) = flagExists ∧
    (∀ s2 q, IsHighLoadMode (pollStep q s2) = q) ∧
    IsHighLoadMode (monitorLoop (StartHighLoadMonitor flagExists s) (polls.map Event.tick)) =
      polls.getLast?.getD flagExists ∧
    (∀ s2, pollStep (IsHighLoadMode s2) s2 = s2) := by
  have hstart : IsHighLoadMode (StartHighLoadMonitor flagExists s) = flagExists := by
    simp only [IsHighLoadMode, StartHighLoadMonitor, setHighLoadMode_flag]
  refine ⟨hstart, ?_, ?_, ?_⟩
  · intro s2 q
    exact setHighLoadMode_flag q s2
  · rw [monitorLoop_ticks_flag, hstart]
  · intro s2
    simp [pollStep, setHighLoadMode, IsHighLoadMode]

end common
